import Mathlib

/-!
Verification of the date_utils library (src/date_utils/__init__.py) against its
specification.  The Python code manipulates `datetime.date` / `datetime.datetime`
values; those are modelled here by a proleptic-Gregorian calendar core
(`ymd2ord` / `ord2ymd`, mirroring CPython's `_ymd2ord` / `_ord2ymd` semantics),
a `Date` structure carrying year/month/day, and a `DateTime` structure carrying
in addition time-of-day fields and an optional fixed UTC offset (modelling
`tzinfo` objects that report a constant offset, which is the only kind the
library constructs or observes).
-/

set_option maxHeartbeats 1000000
set_option maxRecDepth 4000

namespace DateUtils

/-- Leap-year test, as in Python's calendar.isleap: divisible by 4 and
(not divisible by 100 or divisible by 400). -/
def isleap (y : Nat) : Bool := y % 4 == 0 && (y % 100 != 0 || y % 400 == 0)

/-- Days in month m (1-12) of year y: the standard 31/28/31/... table with
February adjusted in leap years (CPython _days_in_month, calendar.monthrange). -/
def daysInMonth (y m : Nat) : Nat :=
  if m = 2 then (if isleap y then 29 else 28)
  else if m = 1 ∨ m = 3 ∨ m = 5 ∨ m = 7 ∨ m = 8 ∨ m = 10 ∨ m = 12 then 31
  else 30

/-- Days in the months 1..m-1 of year y (CPython _days_before_month). -/
def daysBeforeMonth (y m : Nat) : Nat :=
  match m with
  | 0 => 0
  | 1 => 0
  | n + 1 => daysBeforeMonth y n + daysInMonth y n

/-- Number of days in year y: 365, or 366 in leap years. -/
def daysInYear (y : Nat) : Nat := 365 + (if isleap y then 1 else 0)

/-- Days in all years 1..y-1 (CPython _days_before_year). -/
def daysBeforeYear (y : Nat) : Nat :=
  365 * (y - 1) + (y - 1) / 4 - (y - 1) / 100 + (y - 1) / 400

/-- Calendar date: year/month/day, as stored by Python date objects. -/
structure Date where
  year : Nat
  month : Nat
  day : Nat
deriving DecidableEq, Repr

/-- Validity of a calendar date (Python date constructors enforce this,
except that Python additionally caps the year at 9999; none of the claims
depends on the upper cap, and dropping it keeps the round-trip lemmas clean). -/
def Date.Valid (d : Date) : Prop :=
  1 ≤ d.year ∧ 1 ≤ d.month ∧ d.month ≤ 12 ∧ 1 ≤ d.day ∧ d.day ≤ daysInMonth d.year d.month

instance (d : Date) : Decidable d.Valid := by
  unfold Date.Valid; exact inferInstance

/-- Proleptic-Gregorian ordinal of a date (CPython _ymd2ord): 0001-01-01 is
ordinal 1. -/
def ymd2ord (y m d : Nat) : Nat := daysBeforeYear y + daysBeforeMonth y m + d

def Date.toOrd (d : Date) : Nat := ymd2ord d.year d.month d.day

/-- Locate the year containing day offset r (days since Jan 1 of year y),
walking forward one year at a time; fuel makes the recursion structural so
that concrete dates evaluate inside the kernel.  Any correct implementation
of Python date.fromordinal's year search is extensionally equal to yearScan. -/
def yearScanF : Nat → Nat → Nat → Nat × Nat
  | 0, y, r => (y, r)
  | fuel + 1, y, r =>
    if r < daysInYear y then (y, r)
    else yearScanF fuel (y + 1) (r - daysInYear y)

def yearScan (y r : Nat) : Nat × Nat := yearScanF (r + 1) y r

/-- Locate the month containing day-of-year offset off (0-based) of year y,
walking from month m forward with fuel 12 - m; returns the month and the
0-based day offset within it. -/
def monthScanF : Nat → Nat → Nat → Nat → Nat × Nat
  | 0, _, m, off => (m, off)
  | fuel + 1, y, m, off =>
    if off < daysInMonth y m then (m, off)
    else monthScanF fuel y (m + 1) (off - daysInMonth y m)

def monthScan (y m off : Nat) : Nat × Nat := monthScanF (12 - m) y m off

/-- Inverse of ymd2ord (the semantics of CPython _ord2ymd / date.fromordinal):
split off complete 400-year cycles, then scan years and months. -/
def ord2ymd (n : Nat) : Date :=
  let q := (n - 1) / 146097
  let r := (n - 1) % 146097
  let yr := yearScan (400 * q + 1) r
  let mo := monthScan yr.1 1 yr.2
  ⟨yr.1, mo.1, mo.2 + 1⟩

/-- Date addition of an integer number of days (Python date plus timedelta,
computed through the ordinal).  Python raises OverflowError when the result
leaves the supported range; the claims only exercise in-range sums, where
the toNat clamp below is the identity. -/
def dateAddDays (d : Date) (k : Int) : Date := ord2ymd ((d.toOrd : Int) + k).toNat

/-- Difference in days between two dates (Python date subtraction, .days). -/
def dateSub (a b : Date) : Int := ((a.toOrd : Int) - (b.toOrd : Int))

/-- Day of the week with Monday = 0 (Python date.weekday()). -/
def Date.wday (d : Date) : Nat := (d.toOrd + 6) % 7

/-- Python datetime.datetime value: date, time of day, and the attached
tzinfo.  The library only ever attaches fixed-offset tzinfo objects (its own
TZInfo class, or the offset pytz resolved for one specific instant), so
tzinfo is modelled as an optional UTC offset in seconds; none is a naive
datetime.  (TZInfo(None), which the parser can produce for input without a
timezone, behaves like a naive value in every operation the claims exercise
and is merged with none.) -/
structure DateTime where
  year : Nat
  month : Nat
  day : Nat
  hour : Nat
  minute : Nat
  second : Nat
  microsecond : Nat
  tz : Option Int
deriving DecidableEq, Repr

def DateTime.dateOf (t : DateTime) : Date := ⟨t.year, t.month, t.day⟩

/-- Naive midnight datetime for a date (datetime.datetime(y, m, d)). -/
def dtOfDate (d : Date) : DateTime := ⟨d.year, d.month, d.day, 0, 0, 0, 0, none⟩

/-- An argument that may be a datetime.date or a datetime.datetime (the
Python boundary functions accept both). -/
inductive PyDateVal where
  | date (d : Date)
  | datetime (t : DateTime)

/-- Embeds get_min_time.  In Python, isinstance(x, datetime.date) is true for
datetime.datetime values as well (datetime is a subclass of date), so the
branch rebuilding datetime.datetime(x.year, x.month, x.day) runs for every
input, discarding the time-of-day and the tzinfo; the subsequent
replace(hour=0, minute=0, second=0, microsecond=0) then runs on that naive
midnight value. -/
def get_min_time (x : PyDateVal) : DateTime :=
  let rebuilt : DateTime :=
    match x with
    | .date d => ⟨d.year, d.month, d.day, 0, 0, 0, 0, none⟩
    | .datetime t => ⟨t.year, t.month, t.day, 0, 0, 0, 0, none⟩
  { rebuilt with hour := 0, minute := 0, second := 0, microsecond := 0 }

/-- Embeds get_max_time: same always-taken isinstance rebuild as
get_min_time, then replace(hour=23, minute=59, second=59,
microsecond=999999). -/
def get_max_time (x : PyDateVal) : DateTime :=
  let rebuilt : DateTime :=
    match x with
    | .date d => ⟨d.year, d.month, d.day, 0, 0, 0, 0, none⟩
    | .datetime t => ⟨t.year, t.month, t.day, 0, 0, 0, 0, none⟩
  { rebuilt with hour := 23, minute := 59, second := 59, microsecond := 999999 }

/-- Monday of ISO week 1 of the given year (CPython _isoweek1monday). -/
def isoweek1monday (y : Nat) : Int :=
  let firstday : Int := (ymd2ord y 1 1 : Int)
  let firstweekday := (firstday + 6) % 7
  let week1monday := firstday - firstweekday
  if 3 < firstweekday then week1monday + 7 else week1monday

/-- ISO calendar triple (iso year, iso week, iso weekday) of a date
(CPython date.isocalendar; Python floor division and Lean Int division agree
here because the divisor 7 is positive). -/
def Date.isocalendar (d : Date) : Int × Int × Int :=
  let year := d.year
  let today : Int := (d.toOrd : Int)
  let week1monday := isoweek1monday year
  let week := (today - week1monday) / 7
  let day := (today - week1monday) % 7
  if week < 0 then
    let week1monday2 := isoweek1monday (year - 1)
    let week2 := (today - week1monday2) / 7
    let day2 := (today - week1monday2) % 7
    ((year : Int) - 1, week2 + 1, day2 + 1)
  else if 52 ≤ week ∧ isoweek1monday (year + 1) ≤ today then
    ((year : Int) + 1, 0 + 1, day + 1)
  else ((year : Int), week + 1, day + 1)

/-- Ordinal of January 1 of a year, as an integer. -/
def jan1ord (y : Nat) : Int := (ymd2ord y 1 1 : Int)

/-- Weekday of January 1 (Monday = 0), the first_weekday of CPython
_calc_julian_from_U_or_W. -/
def jan1wday (y : Nat) : Int := (jan1ord y + 6) % 7

/-- Day-of-year (1-based) computed by strptime for format %Y %W %w with
weekday Monday: 1 - first_weekday for week 0, else
1 + week_0_length + 7*(week - 1) (CPython _calc_julian_from_U_or_W). -/
def strptimeJulian (y : Nat) (wk : Int) : Int :=
  if wk = 0 then 1 - jan1wday y
  else 1 + (7 - jan1wday y) % 7 + 7 * (wk - 1)

/-- Ordinal of the Monday computed by get_week_boundaries: strptime
('%Y %W %w') of the date's year and its isocalendar week number minus one,
i.e. January 1 of that year advanced by julian - 1 days. -/
def weekStartOrd (d : Date) : Nat :=
  (jan1ord d.year + strptimeJulian d.year ((d.isocalendar).2.1 - 1) - 1).toNat

/-- Embeds get_week_boundaries.  The Python code formats date.year and the
isocalendar week number minus one into a time.strptime call with format
%Y %W %w (weekday 1 = Monday), then converts the parsed struct through
time.mktime / datetime.fromtimestamp — the identity on the represented local
date at midnight (DST shifts of local midnight are outside the model); the
strptime arithmetic is weekStartOrd above.  strptime raises (modelled as
none) when the year does not have exactly four digits (%Y) or the week is
outside 0..53 (%W); time.mktime also fails outside the platform epoch range,
which four-digit years avoid on the systems the tests run on. -/
def get_week_boundaries (d : Date) : Option (DateTime × DateTime) :=
  if d.year < 1000 ∨ 9999 < d.year ∨ ((d.isocalendar).2.1 - 1 : Int) < 0 ∨
      53 < ((d.isocalendar).2.1 - 1 : Int) then none
  else
    some (dtOfDate (ord2ymd (weekStartOrd d)),
      get_max_time (.datetime (dtOfDate (dateAddDays (ord2ymd (weekStartOrd d)) 6))))

/-- Embeds get_month_boundaries: first day of the month at minimal time and
calendar.monthrange's last day of the month at maximal time. -/
def get_month_boundaries (d : Date) : DateTime × DateTime :=
  let y := d.year
  let m := d.month
  let max_day := daysInMonth y m
  (get_min_time (.datetime (dtOfDate ⟨y, m, 1⟩)),
   get_max_time (.datetime (dtOfDate ⟨y, m, max_day⟩)))

/-- List of the integers a, a+1, ..., b-1 (Python range(a, b)). -/
def intRange (a b : Int) : List Int :=
  (List.range (b - a).toNat).map (fun i => a + Int.ofNat i)

/-- Embeds get_dates_between_range: difference_days = (date_end -
date_start).days; the loop walks range(0, difference_days) when reverse and
reversed(range(1, difference_days + 1)) otherwise, appending date_end -
timedelta(days=value) each time, and finally appends date_start (reverse)
or date_end (forward).  No branch raises: for date_end earlier than
date_start both ranges are empty. -/
def get_dates_between_range (date_start date_end : Date) (reverse : Bool) : List Date :=
  let difference_days := dateSub date_end date_start
  let values : List Int :=
    if reverse then intRange 0 difference_days
    else (intRange 1 (difference_days + 1)).reverse
  let dates := values.map (fun value => dateAddDays date_end (-value))
  if reverse then dates ++ [date_start] else dates ++ [date_end]

/-- Embeds get_years_between_range: the loop range(0, diff + 1) over
diff = date_end.year - date_start.year, collecting min_year + index;
empty (not an error) when diff is negative. -/
def get_years_between_range (date_start date_end : Date) : List Int :=
  let diff : Int := (date_end.year : Int) - (date_start.year : Int)
  (intRange 0 (diff + 1)).map (fun index => (date_start.year : Int) + index)

/-- Embeds get_week_start_dates_between_range: the week start comes from
get_week_boundaries(date_start) (none propagates its failure);
week_count = (date_end - min_date).days / 7 with Python 2 floor division
(the repository targets Python 2: on Python 3 the true division would make
range() raise); empty when week_count == 0, otherwise min_date followed by
min_date + 7*week_num for week_num in range(1, week_count). -/
def get_week_start_dates_between_range (date_start date_end : Date) :
    Option (List Date) :=
  match get_week_boundaries date_start with
  | none => none
  | some (mn, _) =>
    if dateSub date_end mn.dateOf / 7 = 0 then some []
    else some (mn.dateOf ::
      (intRange 1 (dateSub date_end mn.dateOf / 7)).map
        (fun week_num => dateAddDays mn.dateOf (7 * week_num)))

/-- Embeds get_month_start_dates_between_range: enumerate all dates from the
month start of date_start (the first component of get_month_boundaries,
taken as a date) to date_end; return [] when start and end share month and
year (Python computes the enumeration before this check but discards it);
otherwise keep the entries with day == 1 and index < count - 1. -/
def get_month_start_dates_between_range (date_start date_end : Date) : List Date :=
  if date_start.month = date_end.month ∧ date_start.year = date_end.year then []
  else
    (((get_dates_between_range (get_month_boundaries date_start).1.dateOf date_end
        false).enum.filter
      (fun p => p.2.day = 1 ∧
        p.1 < (get_dates_between_range (get_month_boundaries date_start).1.dateOf date_end
          false).length - 1)).map
      (fun p => p.2))

/-- Gregorian last day of a month as the specification words it: 28 for
February in non-leap years, 29 in leap years (divisible by 4 and not by 100,
or divisible by 400), 30 or 31 for the other months per the standard table.
This follows the spec text and is compared with the code's computation. -/
def specLastDayOfMonth (y m : Nat) : Nat :=
  if m = 2 then
    (if (y % 4 = 0 ∧ ¬ (y % 100 = 0)) ∨ y % 400 = 0 then 29 else 28)
  else if m = 4 ∨ m = 6 ∨ m = 9 ∨ m = 11 then 30 else 31

/-- Wall-clock microseconds of a datetime counted from 0001-01-01 00:00:00,
ignoring any attached offset. -/
def wallUs (t : DateTime) : Int :=
  ((ymd2ord t.year t.month t.day : Int) * 86400 +
    (t.hour : Int) * 3600 + (t.minute : Int) * 60 + (t.second : Int)) * 1000000 +
    (t.microsecond : Int)

/-- Datetime reconstructed from wall-clock microseconds, attaching the given
tz (the decomposition datetime performs when shifted by a timedelta).
Defined for wall times at or after day ordinal 1; Python raises
OverflowError outside its supported range. -/
def dtOfWallUs (l : Int) (tz : Option Int) : DateTime :=
  ⟨(ord2ymd ((l / 1000000 / 60 / 60 / 24).toNat)).year,
   (ord2ymd ((l / 1000000 / 60 / 60 / 24).toNat)).month,
   (ord2ymd ((l / 1000000 / 60 / 60 / 24).toNat)).day,
   ((l / 1000000 / 60 / 60) % 24).toNat,
   ((l / 1000000 / 60) % 60).toNat,
   ((l / 1000000) % 60).toNat,
   (l % 1000000).toNat,
   tz⟩

/-- UTC wall-clock microseconds of a datetime whose offset is off seconds. -/
def utcUs (t : DateTime) (off : Int) : Int := wallUs t - off * 1000000

/-- Zone database capability (the external collaborator behind pytz): a zone
name resolves to the function giving the zone's UTC offset in seconds at an
absolute instant (identified by the wall-clock microseconds of its UTC
time), or to none for unknown names (pytz.UnknownTimeZoneError). -/
def ZoneDb : Type := String → Option (Int → Int)

/-- Embeds convert_date_to_local_date: pytz.timezone lookup (raises, i.e.
none, for unknown zones), then datetime.astimezone, which raises ValueError
on naive input and otherwise re-expresses the same instant in the target
zone: subtract the own offset to get the UTC wall clock, apply the zone's
offset at that instant, attach that offset. -/
def convert_date_to_local_date (db : ZoneDb) (date : DateTime) (timezone : String) :
    Option DateTime :=
  match db timezone with
  | none => none
  | some zoneOffset =>
    match date.tz with
    | none => none
    | some off =>
      some (dtOfWallUs ((wallUs date - off * 1000000) +
        zoneOffset (wallUs date - off * 1000000) * 1000000)
        (some (zoneOffset (wallUs date - off * 1000000))))

/-- Validity of a datetime value: valid date and in-range time fields
(Python datetime constructors enforce this). -/
def DateTime.ValidDT (t : DateTime) : Prop :=
  Date.Valid t.dateOf ∧ t.hour < 24 ∧ t.minute < 60 ∧ t.second < 60 ∧
  t.microsecond < 1000000

instance (t : DateTime) : Decidable t.ValidDT := by
  unfold DateTime.ValidDT; exact inferInstance

/-- Python str.split() with no argument: whitespace characters. -/
def isPySpace (c : Char) : Bool :=
  c == ' ' || c == '\t' || c == '\n' || c == '\r' || c == '\x0b' || c == '\x0c'

/-- Worker for pySplit, accumulating the current token reversed. -/
def pySplitGo : List Char → List Char → List (List Char)
  | [], acc => if acc = [] then [] else [acc.reverse]
  | c :: cs, acc =>
    if isPySpace c then
      (if acc = [] then pySplitGo cs [] else acc.reverse :: pySplitGo cs [])
    else pySplitGo cs (c :: acc)

/-- Python str.split() with no argument: split on runs of whitespace,
discarding empty pieces. -/
def pySplit (l : List Char) : List (List Char) := pySplitGo l []

/-- Python str.split(sep) for a one-character separator: split on every
occurrence, keeping empty pieces. -/
def pySplitOn (sep : Char) : List Char → List (List Char)
  | [] => [[]]
  | c :: cs =>
    if c = sep then [] :: pySplitOn sep cs
    else
      match pySplitOn sep cs with
      | [] => [[c]]
      | t :: ts => (c :: t) :: ts

/-- Python str.find for a single character: first index, or -1. -/
def pyFind (c : Char) : List Char → Int
  | [] => -1
  | d :: ds =>
    if d = c then 0
    else if pyFind c ds < 0 then -1 else pyFind c ds + 1

/-- Python str.rfind for a single character: last index, or -1. -/
def pyRFind (c : Char) : List Char → Int
  | [] => -1
  | d :: ds =>
    if 0 ≤ pyRFind c ds then pyRFind c ds + 1
    else if d = c then 0 else -1

def lowerChars (l : List Char) : List Char := l.map Char.toLower

def upperChars (l : List Char) : List Char := l.map Char.toUpper

def digitVal (c : Char) : Nat := c.toNat - 48

def allDigits (l : List Char) : Bool := l.all (fun c => c.isDigit)

def digitsVal (l : List Char) : Nat := l.foldl (fun a c => 10 * a + digitVal c) 0

/-- Python int() restricted to the token shapes that occur here: an optional
sign followed by a nonempty run of decimal digits (int() additionally strips
surrounding whitespace, which split tokens never carry). -/
def pyInt? (l : List Char) : Option Int :=
  match l with
  | [] => none
  | c :: rest =>
    if c = '+' then
      (if rest ≠ [] ∧ allDigits rest then some ((digitsVal rest : Nat) : Int) else none)
    else if c = '-' then
      (if rest ≠ [] ∧ allDigits rest then some (-((digitsVal rest : Nat) : Int)) else none)
    else if allDigits (c :: rest) then some ((digitsVal (c :: rest) : Nat) : Int) else none

/-- email._parseaddr._daynames. -/
def dayNamesTable : List (List Char) :=
  ["mon".data, "tue".data, "wed".data, "thu".data, "fri".data, "sat".data, "sun".data]

/-- email._parseaddr._monthnames: twelve abbreviations then the full names
(with may repeated). -/
def monthNamesTable : List (List Char) :=
  ["jan".data, "feb".data, "mar".data, "apr".data, "may".data, "jun".data,
   "jul".data, "aug".data, "sep".data, "oct".data, "nov".data, "dec".data,
   "january".data, "february".data, "march".data, "april".data, "may".data,
   "june".data, "july".data, "august".data, "september".data, "october".data,
   "november".data, "december".data]

/-- Position of the first occurrence (Python list.index; total, returning
past-the-end when absent, which the callers rule out). -/
def idxOf (x : List Char) : List (List Char) → Nat
  | [] => 0
  | y :: ys => if y = x then 0 else idxOf x ys + 1

/-- email._parseaddr._timezones: name to offset in "hundreds" notation. -/
def tzTable : List (List Char × Int) :=
  [("UT".data, 0), ("UTC".data, 0), ("GMT".data, 0), ("Z".data, 0),
   ("AST".data, -400), ("ADT".data, -300), ("EST".data, -500), ("EDT".data, -400),
   ("CST".data, -600), ("CDT".data, -500), ("MST".data, -700), ("MDT".data, -600),
   ("PST".data, -800), ("PDT".data, -700)]

def tzLookupGo : List (List Char × Int) → List Char → Option Int
  | [], _ => none
  | kv :: rest, x => if x = kv.1 then some kv.2 else tzLookupGo rest x

def tzLookup (x : List Char) : Option Int := tzLookupGo tzTable x

/-- Result tuple of parsedate_tz (the fields the caller consumes: the first
six numeric components and the offset in seconds; the offset is none when no
timezone was recognized — Python 2 returns None there, and TZInfo(None)
behaves as naive downstream). -/
structure ParsedTs where
  yy : Int
  mm : Int
  dd : Int
  thh : Int
  tmm : Int
  tss : Int
  tzoffset : Option Int
deriving DecidableEq, Repr

/-- Tail of parsedate_tz after the five fields [dd, mm, yy, tm, tz] are
fixed: month lookup with dd/mm swap, comma stripping, yy/tm and yy/tz swaps,
time split, int conversions, two-digit year fixup, timezone resolution and
offset-to-seconds conversion (Python 2.7 email._parseaddr.parsedate_tz).
Indexing an empty string (dd[-1], yy[-1], yy[0], tm[-1]) raises IndexError
in Python; those paths are modelled as none. -/
def parsedateCore (dd0 mm0 yy0 tm0 tz0 : List Char) : Option ParsedTs :=
  match (if lowerChars mm0 ∈ monthNamesTable then some (dd0, lowerChars mm0)
         else if lowerChars dd0 ∈ monthNamesTable then some (mm0, lowerChars dd0)
         else none) with
  | none => none
  | some (dd1, mm1) =>
    match dd1.getLast? with
    | none => none
    | some dlast =>
      match (if 0 < pyFind ':' yy0 then (tm0, yy0) else (yy0, tm0)).1.getLast? with
      | none => none
      | some ylast =>
        parsedateCore2
          (if dlast = ',' then dd1.dropLast else dd1)
          (idxOf mm1 monthNamesTable + 1)
          (if ylast = ',' then (if 0 < pyFind ':' yy0 then (tm0, yy0) else (yy0, tm0)).1.dropLast
           else (if 0 < pyFind ':' yy0 then (tm0, yy0) else (yy0, tm0)).1)
          (if 0 < pyFind ':' yy0 then (tm0, yy0) else (yy0, tm0)).2
          tz0
where
  parsedateCore2 (dd2 : List Char) (mmIdx : Nat) (yy2 tm1 tz0 : List Char) :
      Option ParsedTs :=
    match yy2.head? with
    | none => none
    | some yhead =>
      match (if ¬ yhead.isDigit then (tz0, yy2) else (yy2, tz0)).1,
          (if ¬ yhead.isDigit then (tz0, yy2) else (yy2, tz0)).2 with
      | yy3, tz1 =>
        match tm1.getLast? with
        | none => none
        | some tlast =>
          match (match pySplitOn ':' (if tlast = ',' then tm1.dropLast else tm1) with
                 | [a, b] => some (a, b, ['0'])
                 | [a, b, c] => some (a, b, c)
                 | _ => none) with
          | none => none
          | some (thh0, tmm0, tss0) =>
            match pyInt? yy3, pyInt? dd2, pyInt? thh0, pyInt? tmm0, pyInt? tss0 with
            | some yyv, some ddv, some thhv, some tmmv, some tssv =>
              some
                ⟨(if yyv < 100 then (if 68 < yyv then yyv + 1900 else yyv + 2000) else yyv),
                 (if 12 < mmIdx then (mmIdx : Int) - 12 else (mmIdx : Int)),
                 ddv, thhv, tmmv, tssv,
                 (match (match tzLookup (upperChars tz1) with
                         | some v => some v
                         | none => pyInt? (upperChars tz1)) with
                  | none => none
                  | some v =>
                    if v = 0 then some 0
                    else if v < 0 then
                      some (-((((-v) / 100) * 3600 + ((-v) % 100) * 60)))
                    else some ((v / 100) * 3600 + (v % 100) * 60))⟩
            | _, _, _, _, _ => none

/-- Embeds Python 2.7 email.utils.parsedate_tz (email._parseaddr): token
split, optional day-name removal, RFC 850 dash splitting for 3 tokens,
trailing +HHMM separation for 4 tokens, then the five-field core.
An empty or whitespace-only input makes data[0] raise IndexError (none). -/
def parsedate_tz (s : String) : Option ParsedTs :=
  match pySplit s.data with
  | [] => none
  | d0 :: drest =>
    parsedateSteps
      (if d0.getLast? = some ',' ∨ lowerChars d0 ∈ dayNamesTable then drest
       else if 0 ≤ pyRFind ',' d0 then d0.drop ((pyRFind ',' d0).toNat + 1) :: drest
       else d0 :: drest)
where
  parsedateSteps (data1 : List (List Char)) : Option ParsedTs :=
    parsedateSteps3
      (if data1.length = 3 then
        match data1 with
        | first :: rest =>
          if (pySplitOn '-' first).length = 3 then pySplitOn '-' first ++ rest else data1
        | [] => data1
       else data1)
  parsedateSteps3 (data2 : List (List Char)) : Option ParsedTs :=
    parsedateFinish
      (if data2.length = 4 then
        match data2.getLast? with
        | some s3 =>
          if 0 < pyFind '+' s3 then
            data2.dropLast ++ [s3.take (pyFind '+' s3).toNat, s3.drop (pyFind '+' s3).toNat]
          else data2 ++ [[]]
        | none => data2
       else data2)
  parsedateFinish (data3 : List (List Char)) : Option ParsedTs :=
    if data3.length < 5 then none
    else
      match data3.take 5 with
      | [dd0, mm0, yy0, tm0, tz0] => parsedateCore dd0 mm0 yy0 tm0 tz0
      | _ => none

/-- Embeds datetime.datetime(year, month, day, hour, minute, second):
validates field ranges (out of range raises ValueError, modelled none). -/
def mkDatetime (yy mm dd thh tmm tss : Int) : Option DateTime :=
  if 1 ≤ yy ∧ yy ≤ 9999 ∧ 1 ≤ mm ∧ mm ≤ 12 ∧ 1 ≤ dd ∧
      dd ≤ (daysInMonth yy.toNat mm.toNat : Int) ∧
      0 ≤ thh ∧ thh ≤ 23 ∧ 0 ≤ tmm ∧ tmm ≤ 59 ∧ 0 ≤ tss ∧ tss ≤ 59 then
    some ⟨yy.toNat, mm.toNat, dd.toNat, thh.toNat, tmm.toNat, tss.toNat, 0, none⟩
  else none

/-- Embeds convert_date_str_to_date: parsedate_tz, then
datetime.datetime(*parsed[0:6]) (a None parse makes the indexing raise
TypeError; out-of-range fields raise ValueError — both modelled none), then
replace(tzinfo=TZInfo(offset)).  A TZInfo(None), produced when the text has
no recognizable timezone, is modelled as a naive result (tz = none): it
behaves identically in every downstream operation modelled here. -/
def convert_date_str_to_date (s : String) : Option DateTime :=
  match parsedate_tz s with
  | none => none
  | some p =>
    match mkDatetime p.yy p.mm p.dd p.thh p.tmm p.tss with
    | none => none
    | some dt => some { dt with tz := p.tzoffset }

/-- Embeds convert_date_str_to_utc: parse then convert to the zone "UTC". -/
def convert_date_str_to_utc (db : ZoneDb) (s : String) : Option DateTime :=
  match convert_date_str_to_date s with
  | none => none
  | some d => convert_date_to_local_date db d "UTC"

/-- Abbreviated day names as they appear in the grammar. -/
def dayAbbrs : List (List Char) :=
  ["Mon".data, "Tue".data, "Wed".data, "Thu".data, "Fri".data, "Sat".data, "Sun".data]

/-- Abbreviated month names as they appear in the grammar. -/
def monAbbrs : List (List Char) :=
  ["Jan".data, "Feb".data, "Mar".data, "Apr".data, "May".data, "Jun".data,
   "Jul".data, "Aug".data, "Sep".data, "Oct".data, "Nov".data, "Dec".data]

def decDigit (n : Nat) : Char :=
  ['0', '1', '2', '3', '4', '5', '6', '7', '8', '9'].getD n '0'

def pad2 (n : Nat) : List Char := [decDigit (n / 10), decDigit (n % 10)]

def pad4 (n : Nat) : List Char :=
  [decDigit (n / 1000), decDigit (n / 100 % 10), decDigit (n / 10 % 10), decDigit (n % 10)]

def dayDec (n : Nat) : List Char :=
  if n < 10 then [decDigit n] else [decDigit (n / 10), decDigit (n % 10)]

/-- Field record of a timestamp in the grammar
"<DayName>, <D> <MonthName> <YYYY> <HH>:<MM>:<SS> <±HHMM>". -/
structure TsFields where
  dayIdx : Nat
  d : Nat
  monIdx : Nat
  y : Nat
  hh : Nat
  mi : Nat
  ss : Nat
  sgn : Bool
  ohh : Nat
  omm : Nat

/-- Modelled from the spec: in-range numeric fields for the grammar — a real
day of the named month of a four-digit year, a valid time of day, and a
two-digit-each offset with minutes below 60. -/
def TsFields.wf (f : TsFields) : Prop :=
  f.dayIdx < 7 ∧ f.monIdx < 12 ∧ 1000 ≤ f.y ∧ f.y ≤ 9999 ∧
  1 ≤ f.d ∧ f.d ≤ daysInMonth f.y (f.monIdx + 1) ∧
  f.hh < 24 ∧ f.mi < 60 ∧ f.ss < 60 ∧ f.ohh < 100 ∧ f.omm < 60

instance (f : TsFields) : Decidable f.wf := by
  unfold TsFields.wf; exact inferInstance

/-- Modelled from the spec: the text of a timestamp with the given fields in
the grammar "<DayName>, <D> <MonthName> <YYYY> <HH>:<MM>:<SS> <±HHMM>". -/
def renderTs (f : TsFields) : String :=
  String.mk ((dayAbbrs.getD f.dayIdx [] ++ [',']) ++ ' ' ::
    (dayDec f.d ++ ' ' ::
      (monAbbrs.getD f.monIdx [] ++ ' ' ::
        (pad4 f.y ++ ' ' ::
          ((pad2 f.hh ++ ':' :: pad2 f.mi ++ ':' :: pad2 f.ss) ++ ' ' ::
            ((if f.sgn then '+' else '-') :: (pad2 f.ohh ++ pad2 f.omm)))))))

/-- Modelled from the spec: a string matches the claimed grammar with
in-range fields when it is the rendering of some well-formed field record. -/
def MatchesGrammar (s : String) : Prop := ∃ f : TsFields, f.wf ∧ renderTs f = s

/-- The Instant the claim expects for a grammar-conforming timestamp: the
named fields with the explicit fixed offset from the text, in seconds. -/
def tsExpected (f : TsFields) : DateTime :=
  ⟨f.y, f.monIdx + 1, f.d, f.hh, f.mi, f.ss, 0,
   some ((if f.sgn then 1 else -1) * ((f.ohh : Int) * 3600 + (f.omm : Int) * 60))⟩

theorem daysInYear_ge (y : Nat) : 365 ≤ daysInYear y := by
  unfold daysInYear; cases isleap y <;> simp

theorem daysInMonth_le31 (y m : Nat) : daysInMonth y m ≤ 31 := by
  unfold daysInMonth
  by_cases h2 : m = 2
  · rw [if_pos h2]
    cases isleap y <;> simp
  · rw [if_neg h2]
    by_cases h31 : m = 1 ∨ m = 3 ∨ m = 5 ∨ m = 7 ∨ m = 8 ∨ m = 10 ∨ m = 12
    · rw [if_pos h31]
    · rw [if_neg h31]
      omega

theorem daysBeforeMonth_succ (y m : Nat) (h : 1 ≤ m) :
    daysBeforeMonth y (m + 1) = daysBeforeMonth y m + daysInMonth y m := by
  match m with
  | 0 => omega
  | n + 1 => rfl

theorem daysBeforeMonth_le (y : Nat) {a b : Nat} (h1 : 1 ≤ a) (h : a ≤ b) :
    daysBeforeMonth y a ≤ daysBeforeMonth y b := by
  induction b, h using Nat.le_induction with
  | base => exact le_refl _
  | succ n hn ih =>
    have hstep := daysBeforeMonth_succ y n (by omega)
    omega

theorem daysBeforeMonth_thirteen (y : Nat) : daysBeforeMonth y 13 = daysInYear y := by
  cases h : isleap y <;>
    simp [daysBeforeMonth, daysInMonth, daysInYear, h]

theorem isleap_iff (y : Nat) :
    isleap y = true ↔ (y % 4 = 0 ∧ (y % 100 ≠ 0 ∨ y % 400 = 0)) := by
  unfold isleap
  simp [Nat.beq_eq_true_eq]

theorem daysBeforeYear_succ (y : Nat) (h : 1 ≤ y) :
    daysBeforeYear (y + 1) = daysBeforeYear y + daysInYear y := by
  unfold daysBeforeYear daysInYear
  by_cases hl : isleap y = true
  · rw [if_pos hl]
    rw [isleap_iff] at hl
    omega
  · rw [if_neg hl]
    rw [isleap_iff] at hl
    push_neg at hl
    omega

theorem daysBeforeYear_le {a b : Nat} (h1 : 1 ≤ a) (h : a ≤ b) :
    daysBeforeYear a ≤ daysBeforeYear b := by
  induction b, h using Nat.le_induction with
  | base => exact le_refl _
  | succ n hn ih =>
    have hstep := daysBeforeYear_succ n (by omega)
    omega

theorem daysBeforeYear_cycle (k : Nat) : daysBeforeYear (400 * k + 1) = 146097 * k := by
  unfold daysBeforeYear
  omega

theorem yearScanF_spec (fuel : Nat) :
    ∀ y0 r, r < fuel → 1 ≤ y0 →
    daysBeforeYear (yearScanF fuel y0 r).1 + (yearScanF fuel y0 r).2 =
      daysBeforeYear y0 + r ∧
    (yearScanF fuel y0 r).2 < daysInYear (yearScanF fuel y0 r).1 ∧
    y0 ≤ (yearScanF fuel y0 r).1 := by
  induction fuel with
  | zero => intro y0 r hr; omega
  | succ fuel ih =>
    intro y0 r hr h0
    rw [yearScanF]
    by_cases h : r < daysInYear y0
    · rw [if_pos h]
      exact ⟨rfl, h, le_refl _⟩
    · rw [if_neg h]
      have h365 := daysInYear_ge y0
      have hrec := ih (y0 + 1) (r - daysInYear y0) (by omega) (by omega)
      have hstep := daysBeforeYear_succ y0 h0
      exact ⟨by omega, hrec.2.1, by omega⟩

theorem yearScan_spec (y0 r : Nat) (h0 : 1 ≤ y0) :
    daysBeforeYear (yearScan y0 r).1 + (yearScan y0 r).2 = daysBeforeYear y0 + r ∧
    (yearScan y0 r).2 < daysInYear (yearScan y0 r).1 ∧ y0 ≤ (yearScan y0 r).1 :=
  yearScanF_spec (r + 1) y0 r (by omega) h0

theorem yearScanF_eq (fuel : Nat) :
    ∀ y0 y off, 1 ≤ y0 → y0 ≤ y → off < daysInYear y →
    daysBeforeYear y - daysBeforeYear y0 + off < fuel →
    yearScanF fuel y0 (daysBeforeYear y - daysBeforeYear y0 + off) = (y, off) := by
  induction fuel with
  | zero => intro y0 y off _ _ _ hfuel; omega
  | succ fuel ih =>
    intro y0 y off h0 hle hoff hfuel
    rw [yearScanF]
    by_cases hyy : y0 = y
    · subst hyy
      rw [Nat.sub_self]
      rw [if_pos (by omega : 0 + off < daysInYear y0)]
      simp
    · have hstep := daysBeforeYear_succ y0 h0
      have hmono := daysBeforeYear_le (show 1 ≤ y0 + 1 by omega) (show y0 + 1 ≤ y by omega)
      have h365 := daysInYear_ge y0
      have hnotlt : ¬ (daysBeforeYear y - daysBeforeYear y0 + off < daysInYear y0) := by
        omega
      rw [if_neg hnotlt]
      have heq : daysBeforeYear y - daysBeforeYear y0 + off - daysInYear y0 =
          daysBeforeYear y - daysBeforeYear (y0 + 1) + off := by
        omega
      rw [heq]
      exact ih (y0 + 1) y off (by omega) (by omega) hoff (by omega)

theorem yearScan_eq (y off : Nat) (y0 : Nat) (h0 : 1 ≤ y0) (hle : y0 ≤ y)
    (hoff : off < daysInYear y) :
    yearScan y0 (daysBeforeYear y - daysBeforeYear y0 + off) = (y, off) :=
  yearScanF_eq (daysBeforeYear y - daysBeforeYear y0 + off + 1) y0 y off h0 hle hoff
    (by omega)

theorem monthScanF_spec (fuel : Nat) :
    ∀ m off, fuel = 12 - m → 1 ≤ m → m ≤ 12 →
    ∀ y, daysBeforeMonth y m + off < daysInYear y →
    daysBeforeMonth y (monthScanF fuel y m off).1 + (monthScanF fuel y m off).2 =
      daysBeforeMonth y m + off ∧
    1 ≤ (monthScanF fuel y m off).1 ∧ (monthScanF fuel y m off).1 ≤ 12 ∧
    (monthScanF fuel y m off).2 < daysInMonth y (monthScanF fuel y m off).1 := by
  induction fuel with
  | zero =>
    intro m off hfuel hm1 hm y hbound
    have hm12 : m = 12 := by omega
    subst hm12
    rw [monthScanF]
    dsimp only
    refine ⟨rfl, by omega, le_refl _, ?_⟩
    have h13 := daysBeforeMonth_thirteen y
    have hstep : daysBeforeMonth y 13 = daysBeforeMonth y 12 + daysInMonth y 12 :=
      daysBeforeMonth_succ y 12 (by omega)
    omega
  | succ fuel ih =>
    intro m off hfuel hm1 hm y hbound
    rw [monthScanF]
    by_cases hlt : off < daysInMonth y m
    · rw [if_pos hlt]
      exact ⟨rfl, by omega, by omega, hlt⟩
    · rw [if_neg hlt]
      have hstep := daysBeforeMonth_succ y m hm1
      have := ih (m + 1) (off - daysInMonth y m) (by omega) (by omega) (by omega) y (by omega)
      exact ⟨by omega, this.2.1, this.2.2.1, this.2.2.2⟩

theorem monthScan_spec (y m off : Nat) (hm1 : 1 ≤ m) (hm : m ≤ 12)
    (hbound : daysBeforeMonth y m + off < daysInYear y) :
    daysBeforeMonth y (monthScan y m off).1 + (monthScan y m off).2 =
      daysBeforeMonth y m + off ∧
    1 ≤ (monthScan y m off).1 ∧ (monthScan y m off).1 ≤ 12 ∧
    (monthScan y m off).2 < daysInMonth y (monthScan y m off).1 :=
  monthScanF_spec (12 - m) m off rfl hm1 hm y hbound

theorem monthScanF_eq (fuel : Nat) :
    ∀ m0 m doff, fuel = 12 - m0 → 1 ≤ m0 → m0 ≤ m → m ≤ 12 →
    ∀ y, doff < daysInMonth y m →
    monthScanF fuel y m0 (daysBeforeMonth y m - daysBeforeMonth y m0 + doff) = (m, doff) := by
  induction fuel with
  | zero =>
    intro m0 m doff hfuel h0 hle hm y hdoff
    have hmm : m0 = 12 := by omega
    have hmm2 : m = 12 := by omega
    subst hmm
    subst hmm2
    rw [monthScanF]
    rw [Nat.sub_self]
    simp
  | succ fuel ih =>
    intro m0 m doff hfuel h0 hle hm y hdoff
    rw [monthScanF]
    by_cases hmm : m0 = m
    · subst hmm
      rw [Nat.sub_self]
      rw [if_pos (by omega : 0 + doff < daysInMonth y m0)]
      simp
    · have hstep := daysBeforeMonth_succ y m0 h0
      have hmono := daysBeforeMonth_le y (show 1 ≤ m0 + 1 by omega) (show m0 + 1 ≤ m by omega)
      have hnotlt : ¬ (daysBeforeMonth y m - daysBeforeMonth y m0 + doff < daysInMonth y m0) := by
        omega
      rw [if_neg hnotlt]
      have heq : daysBeforeMonth y m - daysBeforeMonth y m0 + doff - daysInMonth y m0 =
          daysBeforeMonth y m - daysBeforeMonth y (m0 + 1) + doff := by
        omega
      rw [heq]
      exact ih (m0 + 1) m doff (by omega) (by omega) (by omega) (by omega) y hdoff

theorem monthScan_eq (y m doff : Nat) (m0 : Nat) (h0 : 1 ≤ m0) (hle : m0 ≤ m)
    (hm : m ≤ 12) (hdoff : doff < daysInMonth y m) :
    monthScan y m0 (daysBeforeMonth y m - daysBeforeMonth y m0 + doff) = (m, doff) :=
  monthScanF_eq (12 - m0) m0 m doff rfl h0 hle hm y hdoff

theorem ord2ymd_eq (n : Nat) :
    ord2ymd n =
      ⟨(yearScan (400 * ((n - 1) / 146097) + 1) ((n - 1) % 146097)).1,
       (monthScan (yearScan (400 * ((n - 1) / 146097) + 1) ((n - 1) % 146097)).1 1
          (yearScan (400 * ((n - 1) / 146097) + 1) ((n - 1) % 146097)).2).1,
       (monthScan (yearScan (400 * ((n - 1) / 146097) + 1) ((n - 1) % 146097)).1 1
          (yearScan (400 * ((n - 1) / 146097) + 1) ((n - 1) % 146097)).2).2 + 1⟩ := rfl

/-- Components of ord2ymd, in scalar form: the result is a valid date whose
ordinal is n again. -/
theorem ord2ymd_parts (n : Nat) (h : 1 ≤ n) :
    1 ≤ (ord2ymd n).year ∧ 1 ≤ (ord2ymd n).month ∧ (ord2ymd n).month ≤ 12 ∧
    1 ≤ (ord2ymd n).day ∧ (ord2ymd n).day ≤ daysInMonth (ord2ymd n).year (ord2ymd n).month ∧
    ymd2ord (ord2ymd n).year (ord2ymd n).month (ord2ymd n).day = n := by
  have hyear : (ord2ymd n).year =
      (yearScan (400 * ((n - 1) / 146097) + 1) ((n - 1) % 146097)).1 := rfl
  have hmonth : (ord2ymd n).month =
      (monthScan (yearScan (400 * ((n - 1) / 146097) + 1) ((n - 1) % 146097)).1 1
        (yearScan (400 * ((n - 1) / 146097) + 1) ((n - 1) % 146097)).2).1 := rfl
  have hday : (ord2ymd n).day =
      (monthScan (yearScan (400 * ((n - 1) / 146097) + 1) ((n - 1) % 146097)).1 1
        (yearScan (400 * ((n - 1) / 146097) + 1) ((n - 1) % 146097)).2).2 + 1 := rfl
  rw [hyear, hmonth, hday]
  unfold ymd2ord
  have hys := yearScan_spec (400 * ((n - 1) / 146097) + 1) ((n - 1) % 146097) (by omega)
  have hcycle := daysBeforeYear_cycle ((n - 1) / 146097)
  have hdbm1 : daysBeforeMonth (yearScan (400 * ((n - 1) / 146097) + 1) ((n - 1) % 146097)).1 1
      = 0 := rfl
  have hms := monthScan_spec (yearScan (400 * ((n - 1) / 146097) + 1) ((n - 1) % 146097)).1 1
    (yearScan (400 * ((n - 1) / 146097) + 1) ((n - 1) % 146097)).2 (by omega) (by omega)
    (by omega)
  omega

theorem ord2ymd_valid (n : Nat) (h : 1 ≤ n) : (ord2ymd n).Valid := by
  have hp := ord2ymd_parts n h
  exact ⟨hp.1, hp.2.1, hp.2.2.1, hp.2.2.2.1, hp.2.2.2.2.1⟩

/-- Round trip: converting an ordinal to a date and back is the identity. -/
theorem ymd2ord_ord2ymd (n : Nat) (h : 1 ≤ n) : (ord2ymd n).toOrd = n :=
  (ord2ymd_parts n h).2.2.2.2.2

/-- Round trip: converting a valid date to its ordinal and back is the identity. -/
theorem toOrd_ord2ymd (d : Date) (hv : d.Valid) : ord2ymd d.toOrd = d := by
  obtain ⟨hy, hm1, hm2, hd1, hd2⟩ := hv
  obtain ⟨y, m, dd⟩ := d
  simp only [Date.toOrd] at *
  show ord2ymd (ymd2ord y m dd) = _
  rw [ord2ymd_eq]
  set n := ymd2ord y m dd with hn
  have hnval : n = daysBeforeYear y + daysBeforeMonth y m + dd := rfl
  have hoff : daysBeforeMonth y m + (dd - 1) < daysInYear y := by
    have h13 := daysBeforeMonth_thirteen y
    have hstep := daysBeforeMonth_succ y m hm1
    have hmono := daysBeforeMonth_le y (show 1 ≤ m + 1 by omega) (show m + 1 ≤ 13 by omega)
    omega
  set p := (y - 1) / 400 with hp
  have hylo : 400 * p + 1 ≤ y := by omega
  have hyhi : y + 1 ≤ 400 * (p + 1) + 1 := by omega
  have hlo : daysBeforeYear (400 * p + 1) ≤ daysBeforeYear y :=
    daysBeforeYear_le (by omega) hylo
  have hsucc : daysBeforeYear (y + 1) = daysBeforeYear y + daysInYear y :=
    daysBeforeYear_succ y hy
  have hhi : daysBeforeYear (y + 1) ≤ daysBeforeYear (400 * (p + 1) + 1) :=
    daysBeforeYear_le (by omega) hyhi
  have hcp := daysBeforeYear_cycle p
  have hcp1 := daysBeforeYear_cycle (p + 1)
  have hq : (n - 1) / 146097 = p := by omega
  have hr : (n - 1) % 146097 =
      daysBeforeYear y - daysBeforeYear (400 * p + 1) + (daysBeforeMonth y m + (dd - 1)) := by
    omega
  rw [hq, hr]
  rw [yearScan_eq y (daysBeforeMonth y m + (dd - 1)) (400 * p + 1) (by omega) hylo hoff]
  have hms : monthScan y 1 (daysBeforeMonth y m + (dd - 1)) = (m, dd - 1) := by
    have hdbm1 : daysBeforeMonth y 1 = 0 := rfl
    have := monthScan_eq y m (dd - 1) 1 (by omega) hm1 hm2 (by omega)
    rw [hdbm1] at this
    rw [Nat.sub_zero] at this
    exact this
  simp only [hms]
  have hdd : dd - 1 + 1 = dd := by omega
  rw [hdd]

example : ord2ymd (ymd2ord 2013 9 17) = ⟨2013, 9, 17⟩ := by decide

example : Date.wday ⟨2013, 9, 16⟩ = 0 := by decide

example : (Date.isocalendar ⟨2013, 9, 17⟩).2.1 = 38 := by decide

example : get_week_boundaries ⟨2013, 9, 17⟩ =
    some (⟨2013, 9, 16, 0, 0, 0, 0, none⟩, ⟨2013, 9, 22, 23, 59, 59, 999999, none⟩) := by
  decide

example : get_week_boundaries ⟨2013, 10, 2⟩ =
    some (⟨2013, 9, 30, 0, 0, 0, 0, none⟩, ⟨2013, 10, 6, 23, 59, 59, 999999, none⟩) := by
  decide

example : get_week_start_dates_between_range ⟨2013, 9, 2⟩ ⟨2013, 9, 23⟩ =
    some [⟨2013, 9, 2⟩, ⟨2013, 9, 9⟩, ⟨2013, 9, 16⟩] := by decide

example : get_month_start_dates_between_range ⟨2013, 9, 2⟩ ⟨2014, 1, 1⟩ =
    [⟨2013, 9, 1⟩, ⟨2013, 10, 1⟩, ⟨2013, 11, 1⟩, ⟨2013, 12, 1⟩] := by decide

example : get_years_between_range ⟨2010, 9, 2⟩ ⟨2013, 10, 1⟩ = [2010, 2011, 2012, 2013] := by
  decide

theorem length_intRange (a b : Int) : (intRange a b).length = (b - a).toNat := by
  simp [intRange]

theorem intRange_nil_of_le (a b : Int) (h : b ≤ a) : intRange a b = [] := by
  unfold intRange
  have : (b - a).toNat = 0 := by omega
  rw [this]
  rfl

/-- Canonical form of the forward enumeration: for start ≤ end it is the map
of ord2ymd over the consecutive ordinals from start to end. -/
theorem datesBetween_false_eq (s e : Date) (he : e.Valid) (h : s.toOrd ≤ e.toOrd)
    (hs1 : 1 ≤ s.toOrd) :
    get_dates_between_range s e false =
      (List.range (e.toOrd - s.toOrd + 1)).map (fun i => ord2ymd (s.toOrd + i)) := by
  unfold get_dates_between_range dateSub intRange
  simp only [Bool.false_eq_true, if_false]
  set n := e.toOrd - s.toOrd with hn
  have htn : ((e.toOrd : Int) - (s.toOrd : Int) + 1 - 1).toNat = n := by omega
  rw [htn]
  rw [List.range_succ]
  rw [List.map_append]
  congr 1
  · rw [← List.map_reverse]
    rw [List.range_eq_range']
    rw [List.reverse_range']
    rw [← List.range_eq_range']
    rw [List.map_map]
    rw [List.map_map]
    apply List.map_congr_left
    intro x hx
    rw [List.mem_range] at hx
    show dateAddDays e (-(1 + Int.ofNat (0 + n - 1 - x))) = ord2ymd (s.toOrd + x)
    unfold dateAddDays
    congr 1
    have hcast : Int.ofNat (0 + n - 1 - x) = ((0 + n - 1 - x : Nat) : Int) := rfl
    rw [hcast]
    omega
  · simp only [List.map_cons, List.map_nil]
    have hse : s.toOrd + n = e.toOrd := by omega
    rw [hse]
    rw [show ord2ymd e.toOrd = e from toOrd_ord2ymd e he]

/-- Canonical form of the reversed enumeration: for start ≤ end it is the map
of ord2ymd over the ordinals from end downward to start. -/
theorem datesBetween_true_eq (s e : Date) (hs : s.Valid) (h : s.toOrd ≤ e.toOrd) :
    get_dates_between_range s e true =
      (List.range (e.toOrd - s.toOrd + 1)).map (fun i => ord2ymd (e.toOrd - i)) := by
  unfold get_dates_between_range dateSub intRange
  simp only [if_true]
  set n := e.toOrd - s.toOrd with hn
  have hs1 : 1 ≤ s.toOrd := by
    have := hs.1
    have : 1 ≤ daysBeforeMonth s.year s.month + s.day := by
      have := hs.2.2.2.1
      omega
    unfold Date.toOrd ymd2ord
    omega
  have htn : ((e.toOrd : Int) - (s.toOrd : Int) - 0).toNat = n := by omega
  rw [htn]
  rw [List.range_succ]
  rw [List.map_append]
  congr 1
  · rw [List.map_map]
    apply List.map_congr_left
    intro x hx
    rw [List.mem_range] at hx
    show dateAddDays e (-(0 + Int.ofNat x)) = ord2ymd (e.toOrd - x)
    unfold dateAddDays
    congr 1
    have hcast : Int.ofNat x = ((x : Nat) : Int) := rfl
    rw [hcast]
    omega
  · simp only [List.map_cons, List.map_nil]
    have hse : e.toOrd - n = s.toOrd := by omega
    rw [hse]
    rw [show ord2ymd s.toOrd = s from toOrd_ord2ymd s hs]

theorem toOrd_pos (d : Date) (hv : d.Valid) : 1 ≤ d.toOrd := by
  have := hv.2.2.2.1
  unfold Date.toOrd ymd2ord
  omega

/-- Behavior of the range enumerations on an inverted range (end before
start): no branch raises; the loops are empty and only the final append
contributes, and the year enumeration maps over an empty range. -/
theorem invertedRange_behavior (s e : Date) :
    (dateSub e s < 0 →
      get_dates_between_range s e false = [e] ∧
      get_dates_between_range s e true = [s]) ∧
    ((e.year : Int) < (s.year : Int) → get_years_between_range s e = []) := by
  constructor
  · intro hlt
    unfold get_dates_between_range
    constructor
    · simp only [Bool.false_eq_true, if_false]
      rw [intRange_nil_of_le 1 (dateSub e s + 1) (by omega)]
      rfl
    · simp only [if_true]
      rw [intRange_nil_of_le 0 (dateSub e s) (by omega)]
      rfl
  · intro hlt
    unfold get_years_between_range
    simp only [intRange_nil_of_le 0 ((e.year : Int) - (s.year : Int) + 1) (by omega),
      List.map_nil]

/-- Claim C1 (counterexample).  The claim states that for end earlier than
start, get_dates_between_range and get_years_between_range fail with
InvalidRangeError.  The code has no such error path at all: at these
concrete inverted ranges both functions return normally (a one-element list,
resp. the empty list) instead of failing. -/
theorem claim1_counterexample :
    get_dates_between_range ⟨2013, 9, 5⟩ ⟨2013, 9, 2⟩ false = [⟨2013, 9, 2⟩] ∧
    get_dates_between_range ⟨2013, 9, 5⟩ ⟨2013, 9, 2⟩ true = [⟨2013, 9, 5⟩] ∧
    get_years_between_range ⟨2013, 1, 1⟩ ⟨2012, 1, 1⟩ = [] := by
  refine ⟨?_, ?_, ?_⟩ <;> decide

/-- Claim C1 (amended).  For every pair of dates with end earlier than start,
the range enumerations return normally without raising: get_dates_between_range
returns [end] when reverse=false and [start] when reverse=true, and
get_years_between_range returns [] when end.year < start.year. -/
theorem claim1_amended (s e : Date) :
    (dateSub e s < 0 →
      get_dates_between_range s e false = [e] ∧
      get_dates_between_range s e true = [s]) ∧
    ((e.year : Int) < (s.year : Int) → get_years_between_range s e = []) :=
  invertedRange_behavior s e

theorem claim1_amended_witness :
    dateSub (⟨2013, 9, 2⟩ : Date) ⟨2013, 9, 5⟩ < 0 ∧
    ((2012 : Nat) : Int) < ((2013 : Nat) : Int) ∧
    get_dates_between_range ⟨2013, 9, 5⟩ ⟨2013, 9, 2⟩ false = [⟨2013, 9, 2⟩] ∧
    get_years_between_range ⟨2013, 1, 1⟩ ⟨2012, 1, 1⟩ = [] :=
  ⟨by decide, by decide,
   ((claim1_amended ⟨2013, 9, 5⟩ ⟨2013, 9, 2⟩).1 (by decide)).1,
   (claim1_amended ⟨2013, 1, 1⟩ ⟨2012, 1, 1⟩).2 (by decide)⟩

/-- Claim C10.  For every pair of dates with end earlier than start, the range
enumerations return normally without raising: get_dates_between_range returns
the single-element list [end] when reverse=false and [start] when reverse=true,
and get_years_between_range returns the empty list when end.year < start.year. -/
theorem claim10_correct (s e : Date) :
    (dateSub e s < 0 →
      get_dates_between_range s e false = [e] ∧
      get_dates_between_range s e true = [s]) ∧
    ((e.year : Int) < (s.year : Int) → get_years_between_range s e = []) :=
  invertedRange_behavior s e

theorem claim10_correct_witness :
    dateSub (⟨2012, 9, 2⟩ : Date) ⟨2013, 9, 5⟩ < 0 ∧
    get_dates_between_range ⟨2013, 9, 5⟩ ⟨2012, 9, 2⟩ false = [⟨2012, 9, 2⟩] ∧
    get_dates_between_range ⟨2013, 9, 5⟩ ⟨2012, 9, 2⟩ true = [⟨2013, 9, 5⟩] ∧
    get_years_between_range ⟨2013, 9, 5⟩ ⟨2012, 9, 2⟩ = [] :=
  ⟨by decide,
   ((claim10_correct ⟨2013, 9, 5⟩ ⟨2012, 9, 2⟩).1 (by decide)).1,
   ((claim10_correct ⟨2013, 9, 5⟩ ⟨2012, 9, 2⟩).1 (by decide)).2,
   (claim10_correct ⟨2013, 9, 5⟩ ⟨2012, 9, 2⟩).2 (by decide)⟩

/-- Claim C4.  For start ≤ end (by ordinal), the forward enumeration contains
both endpoints, has length (end - start).days + 1, is strictly ascending, and
the reverse=true result is the exact reverse of the reverse=false result
(hence descending). -/
theorem claim4_datesBetween_correct (s e : Date) (hs : s.Valid) (he : e.Valid)
    (h : s.toOrd ≤ e.toOrd) :
    s ∈ get_dates_between_range s e false ∧
    e ∈ get_dates_between_range s e false ∧
    (get_dates_between_range s e false).length = (dateSub e s).toNat + 1 ∧
    List.Chain' (fun a b => a.toOrd < b.toOrd) (get_dates_between_range s e false) ∧
    get_dates_between_range s e true = (get_dates_between_range s e false).reverse := by
  have hs1 := toOrd_pos s hs
  have he1 := toOrd_pos e he
  rw [datesBetween_false_eq s e he h hs1, datesBetween_true_eq s e hs h]
  set n := e.toOrd - s.toOrd with hn
  refine ⟨?_, ?_, ?_, ?_, ?_⟩
  · apply List.mem_map.mpr
    refine ⟨0, ?_, ?_⟩
    · rw [List.mem_range]; omega
    · rw [Nat.add_zero]; exact toOrd_ord2ymd s hs
  · apply List.mem_map.mpr
    refine ⟨n, ?_, ?_⟩
    · rw [List.mem_range]; omega
    · rw [show s.toOrd + n = e.toOrd by omega]; exact toOrd_ord2ymd e he
  · rw [List.length_map, List.length_range]
    unfold dateSub
    omega
  · rw [List.chain'_map]
    rw [show n + 1 = Nat.succ n from rfl]
    rw [List.chain'_range_succ]
    intro m hm
    rw [ymd2ord_ord2ymd _ (by omega), ymd2ord_ord2ymd _ (by omega)]
    omega
  · rw [← List.map_reverse]
    rw [List.range_eq_range', List.reverse_range', ← List.range_eq_range']
    rw [List.map_map]
    apply List.map_congr_left
    intro x hx
    rw [List.mem_range] at hx
    show ord2ymd (e.toOrd - x) = ord2ymd (s.toOrd + (0 + (n + 1) - 1 - x))
    congr 1
    omega

theorem claim4_datesBetween_correct_witness :
    Date.Valid ⟨2013, 9, 2⟩ ∧ Date.Valid ⟨2013, 9, 5⟩ ∧
    (⟨2013, 9, 2⟩ : Date).toOrd ≤ (⟨2013, 9, 5⟩ : Date).toOrd ∧
    (get_dates_between_range ⟨2013, 9, 2⟩ ⟨2013, 9, 5⟩ false).length =
      (dateSub ⟨2013, 9, 5⟩ ⟨2013, 9, 2⟩).toNat + 1 ∧
    get_dates_between_range ⟨2013, 9, 2⟩ ⟨2013, 9, 5⟩ true =
      (get_dates_between_range ⟨2013, 9, 2⟩ ⟨2013, 9, 5⟩ false).reverse :=
  ⟨by decide, by decide, by decide,
   (claim4_datesBetween_correct ⟨2013, 9, 2⟩ ⟨2013, 9, 5⟩ (by decide) (by decide)
      (by decide)).2.2.1,
   (claim4_datesBetween_correct ⟨2013, 9, 2⟩ ⟨2013, 9, 5⟩ (by decide) (by decide)
      (by decide)).2.2.2.2⟩

/-- Claim C8.  For every valid date d, get_month_boundaries returns a start
equal to the naive minimal instant of the first day of d's month, and an end
at maximal time-of-day in the same month whose day equals the Gregorian last
day of that month, leap-year aware. -/
theorem claim8_monthBoundaries_correct (d : Date) (hv : d.Valid) :
    (get_month_boundaries d).1 = ⟨d.year, d.month, 1, 0, 0, 0, 0, none⟩ ∧
    (get_month_boundaries d).2.year = d.year ∧
    (get_month_boundaries d).2.month = d.month ∧
    (get_month_boundaries d).2.hour = 23 ∧
    (get_month_boundaries d).2.minute = 59 ∧
    (get_month_boundaries d).2.second = 59 ∧
    (get_month_boundaries d).2.microsecond = 999999 ∧
    (get_month_boundaries d).2.day = specLastDayOfMonth d.year d.month ∧
    28 ≤ (get_month_boundaries d).2.day ∧ (get_month_boundaries d).2.day ≤ 31 := by
  have hm1 := hv.2.1
  have hm2 := hv.2.2.1
  have hday : (get_month_boundaries d).2.day = daysInMonth d.year d.month := rfl
  have heq : daysInMonth d.year d.month = specLastDayOfMonth d.year d.month := by
    unfold daysInMonth specLastDayOfMonth
    by_cases hfeb : d.month = 2
    · rw [if_pos hfeb, if_pos hfeb]
      by_cases hl : isleap d.year = true
      · rw [if_pos hl]
        rw [isleap_iff] at hl
        rw [if_pos (by omega)]
      · rw [if_neg hl]
        rw [isleap_iff] at hl
        push_neg at hl
        rw [if_neg (by omega)]
    · rw [if_neg hfeb, if_neg hfeb]
      by_cases h31 : d.month = 1 ∨ d.month = 3 ∨ d.month = 5 ∨ d.month = 7 ∨ d.month = 8 ∨
          d.month = 10 ∨ d.month = 12
      · rw [if_pos h31, if_neg (by omega)]
      · rw [if_neg h31, if_pos (by omega)]
  have hbound : 28 ≤ daysInMonth d.year d.month ∧ daysInMonth d.year d.month ≤ 31 := by
    unfold daysInMonth
    by_cases hfeb : d.month = 2
    · rw [if_pos hfeb]
      by_cases hl : isleap d.year = true
      · rw [if_pos hl]; omega
      · rw [if_neg hl]; omega
    · rw [if_neg hfeb]
      by_cases h31 : d.month = 1 ∨ d.month = 3 ∨ d.month = 5 ∨ d.month = 7 ∨ d.month = 8 ∨
          d.month = 10 ∨ d.month = 12
      · rw [if_pos h31]; omega
      · rw [if_neg h31]; omega
  exact ⟨rfl, rfl, rfl, rfl, rfl, rfl, rfl, by rw [hday, heq], by omega, by omega⟩

theorem claim8_monthBoundaries_correct_witness :
    Date.Valid ⟨2016, 2, 10⟩ ∧
    (get_month_boundaries ⟨2016, 2, 10⟩).2.day = specLastDayOfMonth 2016 2 ∧
    (get_month_boundaries ⟨2016, 2, 10⟩).2.day = 29 :=
  ⟨by decide,
   (claim8_monthBoundaries_correct ⟨2016, 2, 10⟩ (by decide)).2.2.2.2.2.2.2.1,
   by decide⟩

/-- Claim C9 (code bug evaluation).  get_min_time and get_max_time on a
timezone-aware datetime: the time-of-day fields come out exactly as the claim
says (all-zero, resp. 23:59:59.999999) and the calendar date is preserved,
but the attached UTC offset (+7200 s) is dropped — the result is naive
(tz = none) — because Python's isinstance(x, datetime.date) is also true for
datetime.datetime instances, so the rebuild branch meant for date-only input
always runs.  The claim (and the spec) say the offset is preserved; the
intent of the isinstance dispatch and of replace() semantics supports the
claim, making this a code bug. -/
theorem claim9_minmax_eval :
    get_min_time (.datetime ⟨2013, 9, 17, 5, 30, 0, 0, some 7200⟩) =
      ⟨2013, 9, 17, 0, 0, 0, 0, none⟩ ∧
    get_max_time (.datetime ⟨2013, 9, 17, 5, 30, 0, 0, some 7200⟩) =
      ⟨2013, 9, 17, 23, 59, 59, 999999, none⟩ :=
  ⟨rfl, rfl⟩

theorem jan1wday_bounds (y : Nat) : 0 ≤ jan1wday y ∧ jan1wday y < 7 := by
  unfold jan1wday
  constructor
  · exact Int.emod_nonneg _ (by norm_num)
  · exact Int.emod_lt_of_pos _ (by norm_num)

theorem daysBeforeYear_1000 : daysBeforeYear 1000 = 364877 := by decide

/-- The Monday computed by get_week_boundaries is a Monday: its ordinal is
congruent to 1 mod 7, and positive, whenever the year is at least 1000 and
the adjusted week number is nonnegative. -/
theorem weekStartOrd_mod (d : Date) (hy : 1000 ≤ d.year)
    (hwk : 0 ≤ ((d.isocalendar).2.1 - 1 : Int)) :
    1 ≤ weekStartOrd d ∧ weekStartOrd d % 7 = 1 := by
  unfold weekStartOrd strptimeJulian
  have hf := jan1wday_bounds d.year
  have hj : 364878 ≤ jan1ord d.year := by
    unfold jan1ord ymd2ord
    have hmono := daysBeforeYear_le (show 1 ≤ 1000 by omega) hy
    rw [daysBeforeYear_1000] at hmono
    have : daysBeforeMonth d.year 1 = 0 := rfl
    omega
  have hfd : jan1wday d.year = (jan1ord d.year + 6) % 7 := rfl
  by_cases h0 : ((d.isocalendar).2.1 - 1 : Int) = 0
  · rw [if_pos h0]
    omega
  · rw [if_neg h0]
    omega

/-- Inversion of a successful get_week_boundaries call: the pair is the naive
midnight datetime of the Monday ordinal N = weekStartOrd d (N ≡ 1 mod 7) and
the maximal time of that date plus six days. -/
theorem weekBoundaries_inv (d : Date) (mn mx : DateTime)
    (h : get_week_boundaries d = some (mn, mx)) :
    1 ≤ weekStartOrd d ∧ weekStartOrd d % 7 = 1 ∧
    mn = dtOfDate (ord2ymd (weekStartOrd d)) ∧
    mx = get_max_time (.datetime (dtOfDate (dateAddDays (ord2ymd (weekStartOrd d)) 6))) := by
  unfold get_week_boundaries at h
  by_cases hg : d.year < 1000 ∨ 9999 < d.year ∨ ((d.isocalendar).2.1 - 1 : Int) < 0 ∨
      53 < ((d.isocalendar).2.1 - 1 : Int)
  · rw [if_pos hg] at h
    cases h
  · rw [if_neg hg] at h
    push_neg at hg
    have hmod := weekStartOrd_mod d (by omega) (by omega)
    rw [Option.some.injEq, Prod.mk.injEq] at h
    exact ⟨hmod.1, hmod.2, h.1.symm, h.2.symm⟩

/-- Claim C2 (counterexample).  For d = 2013-12-31 (a year-boundary date the
claim explicitly includes), get_week_boundaries returns the week of
2012-12-31 .. 2013-01-06 — nearly a year away — so d does not lie within
[start, end], contrary to the claim. -/
theorem claim2_counterexample :
    get_week_boundaries ⟨2013, 12, 31⟩ =
      some (⟨2012, 12, 31, 0, 0, 0, 0, none⟩, ⟨2013, 1, 6, 23, 59, 59, 999999, none⟩) ∧
    ¬ ((⟨2012, 12, 31⟩ : Date).toOrd ≤ (⟨2013, 12, 31⟩ : Date).toOrd ∧
       (⟨2013, 12, 31⟩ : Date).toOrd ≤ (⟨2013, 1, 6⟩ : Date).toOrd) := by
  constructor
  · decide
  · decide

/-- Claim C2 (amended).  Whenever get_week_boundaries succeeds, the start is
a Monday at minimal time-of-day and the end is maxTime(start + 6 days); but
the input date need not lie within [start, end]: near year boundaries and
throughout years that begin on a Monday the returned week is not the week
containing d. -/
theorem claim2_amended (d : Date) (mn mx : DateTime)
    (h : get_week_boundaries d = some (mn, mx)) :
    mn.dateOf.wday = 0 ∧
    mn.hour = 0 ∧ mn.minute = 0 ∧ mn.second = 0 ∧ mn.microsecond = 0 ∧ mn.tz = none ∧
    mx = get_max_time (.datetime (dtOfDate (dateAddDays mn.dateOf 6))) := by
  obtain ⟨hN1, hN7, hmn, hmx⟩ := weekBoundaries_inv d mn mx h
  subst hmn
  subst hmx
  refine ⟨?_, rfl, rfl, rfl, rfl, rfl, rfl⟩
  show ((ord2ymd (weekStartOrd d)).toOrd + 6) % 7 = 0
  rw [ymd2ord_ord2ymd _ hN1]
  omega

theorem claim2_amended_witness :
    (⟨2013, 9, 16, 0, 0, 0, 0, none⟩ : DateTime).dateOf.wday = 0 ∧
    (⟨2013, 9, 22, 23, 59, 59, 999999, none⟩ : DateTime) =
      get_max_time (.datetime (dtOfDate
        (dateAddDays (⟨2013, 9, 16, 0, 0, 0, 0, none⟩ : DateTime).dateOf 6))) :=
  ⟨(claim2_amended ⟨2013, 9, 17⟩ ⟨2013, 9, 16, 0, 0, 0, 0, none⟩
      ⟨2013, 9, 22, 23, 59, 59, 999999, none⟩ (by decide)).1,
   (claim2_amended ⟨2013, 9, 17⟩ ⟨2013, 9, 16, 0, 0, 0, 0, none⟩
      ⟨2013, 9, 22, 23, 59, 59, 999999, none⟩ (by decide)).2.2.2.2.2.2⟩

theorem weekChain (md : Date) (hv : md.Valid) (m : Nat) :
    List.Chain' (fun a b => dateSub b a = 7)
      (md :: (List.range m).map (fun i => dateAddDays md (7 * (1 + Int.ofNat i)))) := by
  have h1 := toOrd_pos md hv
  have hform : md :: (List.range m).map (fun i => dateAddDays md (7 * (1 + Int.ofNat i))) =
      (List.range (m + 1)).map (fun i => ord2ymd (md.toOrd + 7 * i)) := by
    rw [List.range_succ_eq_map]
    rw [List.map_cons]
    congr 1
    · rw [Nat.mul_zero, Nat.add_zero]
      exact (toOrd_ord2ymd md hv).symm
    · rw [List.map_map]
      apply List.map_congr_left
      intro x hx
      show dateAddDays md (7 * (1 + Int.ofNat x)) = ord2ymd (md.toOrd + 7 * (x + 1))
      unfold dateAddDays
      congr 1
      have hc : Int.ofNat x = (x : Int) := rfl
      rw [hc]
      omega
  rw [hform]
  rw [List.chain'_map]
  rw [show m + 1 = Nat.succ m from rfl]
  rw [List.chain'_range_succ]
  intro i hi
  unfold dateSub
  rw [ymd2ord_ord2ymd _ (by omega), ymd2ord_ord2ymd _ (by omega)]
  omega

/-- Claim C6 (counterexample).  2018-01-08 is itself a Monday and 2018-01-09
is one day later, so by the claim (same week: end is less than 7 days after
the Monday of start's week) the result must be empty; the code instead
returns [2018-01-01] — also not the Monday of start's own week — because
get_week_boundaries places every date of 2018 (a Monday-starting year) one
week early. -/
theorem claim6_counterexample :
    Date.wday ⟨2018, 1, 8⟩ = 0 ∧
    0 ≤ dateSub ⟨2018, 1, 9⟩ ⟨2018, 1, 8⟩ ∧
    dateSub ⟨2018, 1, 9⟩ ⟨2018, 1, 8⟩ < 7 ∧
    get_week_start_dates_between_range ⟨2018, 1, 8⟩ ⟨2018, 1, 9⟩ = some [⟨2018, 1, 1⟩] := by
  refine ⟨?_, ?_, ?_, ?_⟩ <;> decide

/-- Claim C6 (amended).  When get_week_boundaries(start) succeeds with start
instant mn, the result exists and: it is empty exactly when
floor((end - mn.date).days / 7) = 0 (which replaces the claim's "same week"
test — mn.date is not always the Monday of start's own week); otherwise its
first entry is mn.date and each subsequent entry advances by exactly 7 days.
The three 2013 scenarios hold as stated in the claim. -/
theorem claim6_amended (s e : Date) (mn mx : DateTime)
    (h : get_week_boundaries s = some (mn, mx)) :
    (∃ L, get_week_start_dates_between_range s e = some L ∧
      (L = [] ↔ dateSub e mn.dateOf / 7 = 0) ∧
      (¬ dateSub e mn.dateOf / 7 = 0 → L.head? = some mn.dateOf) ∧
      List.Chain' (fun a b => dateSub b a = 7) L) ∧
    get_week_start_dates_between_range ⟨2013, 9, 2⟩ ⟨2013, 9, 8⟩ = some [] ∧
    get_week_start_dates_between_range ⟨2013, 9, 2⟩ ⟨2013, 9, 9⟩ = some [⟨2013, 9, 2⟩] ∧
    get_week_start_dates_between_range ⟨2013, 9, 2⟩ ⟨2013, 9, 23⟩ =
      some [⟨2013, 9, 2⟩, ⟨2013, 9, 9⟩, ⟨2013, 9, 16⟩] := by
  refine ⟨?_, by decide, by decide, by decide⟩
  obtain ⟨hN1, hN7, hmn, hmx⟩ := weekBoundaries_inv s mn mx h
  have hvmd : (ord2ymd (weekStartOrd s)).Valid := ord2ymd_valid _ hN1
  have hmd : mn.dateOf = ord2ymd (weekStartOrd s) := by rw [hmn]; rfl
  unfold get_week_start_dates_between_range
  rw [h]
  dsimp only
  by_cases hwc : dateSub e mn.dateOf / 7 = 0
  · rw [if_pos hwc]
    exact ⟨[], rfl, by simp [hwc], by tauto, List.chain'_nil⟩
  · rw [if_neg hwc]
    refine ⟨_, rfl, by simp [hwc], fun _ => rfl, ?_⟩
    rw [hmd]
    have hrw : (intRange 1 (dateSub e (ord2ymd (weekStartOrd s)) / 7)).map
        (fun week_num => dateAddDays (ord2ymd (weekStartOrd s)) (7 * week_num)) =
        (List.range (dateSub e (ord2ymd (weekStartOrd s)) / 7 - 1).toNat).map
          (fun i => dateAddDays (ord2ymd (weekStartOrd s)) (7 * (1 + Int.ofNat i))) := by
      unfold intRange
      rw [List.map_map]
      rfl
    rw [hrw]
    exact weekChain (ord2ymd (weekStartOrd s)) hvmd _

theorem claim6_amended_witness :
    get_week_start_dates_between_range ⟨2013, 9, 2⟩ ⟨2013, 9, 8⟩ = some [] :=
  (claim6_amended ⟨2013, 9, 2⟩ ⟨2013, 9, 8⟩ ⟨2013, 9, 2, 0, 0, 0, 0, none⟩
    ⟨2013, 9, 8, 23, 59, 59, 999999, none⟩ (by decide)).2.1

theorem enumFrom_filter_below (X : List Date) :
    ∀ k c : Nat, k + X.length ≤ c →
    (X.enumFrom k).filter (fun q => decide (q.2.day = 1 ∧ q.1 < c)) =
      (X.enumFrom k).filter (fun q => decide (q.2.day = 1)) := by
  induction X with
  | nil => intro k c h; rfl
  | cons x xs ih =>
    intro k c h
    rw [List.enumFrom_cons, List.filter_cons, List.filter_cons]
    have hk : k < c := by
      have : (x :: xs).length = xs.length + 1 := rfl
      omega
    have hlen : k + 1 + xs.length ≤ c := by
      have : (x :: xs).length = xs.length + 1 := rfl
      omega
    have hcong : decide ((k, x).2.day = 1 ∧ (k, x).1 < c) = decide ((k, x).2.day = 1) := by
      by_cases hx : x.day = 1 <;> simp [hx, hk]
    rw [hcong, ih (k + 1) c hlen]

theorem enumFrom_filter_day_map (X : List Date) :
    ∀ k : Nat,
    ((X.enumFrom k).filter (fun q => decide (q.2.day = 1))).map (fun q => q.2) =
      X.filter (fun d => decide (d.day = 1)) := by
  induction X with
  | nil => intro k; rfl
  | cons x xs ih =>
    intro k
    rw [List.enumFrom_cons, List.filter_cons, List.filter_cons]
    by_cases hx : x.day = 1
    · rw [if_pos (by simp [hx])]
      rw [if_pos (by simp [hx])]
      rw [List.map_cons, ih (k + 1)]
    · rw [if_neg (by simp [hx])]
      rw [if_neg (by simp [hx])]
      exact ih (k + 1)

/-- The index-filtered enumeration used by get_month_start_dates_between_range
is the day-1 filter of the list with its last element dropped. -/
theorem enum_filter_dropLast (X : List Date) (a : Date) :
    (((X ++ [a]).enum.filter
        (fun q => decide (q.2.day = 1 ∧ q.1 < (X ++ [a]).length - 1))).map
      (fun q => q.2)) =
      (X ++ [a]).dropLast.filter (fun d => decide (d.day = 1)) := by
  rw [List.dropLast_concat]
  have hc : (X ++ [a]).length - 1 = X.length := by
    rw [List.length_append]
    simp
  simp only [hc]
  show (((X ++ [a]).enumFrom 0).filter
      (fun q => decide (q.2.day = 1 ∧ q.1 < X.length))).map (fun q => q.2) = _
  rw [List.enumFrom_append]
  rw [List.filter_append]
  have hsingle : (List.enumFrom (0 + X.length) [a]).filter
      (fun q => decide (q.2.day = 1 ∧ q.1 < X.length)) = [] := by
    rw [List.enumFrom_cons, List.filter_cons]
    have : ¬ (a.day = 1 ∧ 0 + X.length < X.length) := by omega
    simp [this]
  rw [hsingle, List.append_nil]
  rw [enumFrom_filter_below X 0 X.length (by omega)]
  exact enumFrom_filter_day_map X 0

/-- Claim C7.  For start ≤ end, get_month_start_dates_between_range is empty
when start and end share (year, month), and otherwise equals the day-1
entries of the enumeration of all days from start's month-start to end with
the last enumerated day excluded; the claim's two scenarios hold. -/
theorem claim7_monthStarts_correct (s e : Date) (_h : s.toOrd ≤ e.toOrd) :
    get_month_start_dates_between_range s e =
      (if s.month = e.month ∧ s.year = e.year then []
       else (get_dates_between_range ⟨s.year, s.month, 1⟩ e false).dropLast.filter
              (fun d => decide (d.day = 1))) ∧
    get_month_start_dates_between_range ⟨2013, 9, 2⟩ ⟨2013, 9, 28⟩ = [] ∧
    get_month_start_dates_between_range ⟨2013, 9, 2⟩ ⟨2014, 1, 1⟩ =
      [⟨2013, 9, 1⟩, ⟨2013, 10, 1⟩, ⟨2013, 11, 1⟩, ⟨2013, 12, 1⟩] := by
  refine ⟨?_, by decide, by decide⟩
  unfold get_month_start_dates_between_range
  have hmin : (get_month_boundaries s).1.dateOf = (⟨s.year, s.month, 1⟩ : Date) := rfl
  by_cases hsame : s.month = e.month ∧ s.year = e.year
  · rw [if_pos hsame, if_pos hsame]
  · rw [if_neg hsame, if_neg hsame]
    rw [hmin]
    have hshape : get_dates_between_range ⟨s.year, s.month, 1⟩ e false =
        ((intRange 1 (dateSub e ⟨s.year, s.month, 1⟩ + 1)).reverse).map
          (fun value => dateAddDays e (-value)) ++ [e] := by
      unfold get_dates_between_range
      simp only [Bool.false_eq_true, if_false]
    simp only [hshape]
    exact enum_filter_dropLast _ e

theorem claim7_monthStarts_correct_witness :
    (⟨2013, 9, 2⟩ : Date).toOrd ≤ (⟨2014, 1, 1⟩ : Date).toOrd ∧
    get_month_start_dates_between_range ⟨2013, 9, 2⟩ ⟨2014, 1, 1⟩ =
      [⟨2013, 9, 1⟩, ⟨2013, 10, 1⟩, ⟨2013, 11, 1⟩, ⟨2013, 12, 1⟩] :=
  ⟨by decide,
   (claim7_monthStarts_correct ⟨2013, 9, 2⟩ ⟨2014, 1, 1⟩ (by decide)).2.2⟩

theorem wallUs_dtOfWallUs (l : Int) (tz : Option Int) (h : 86400000000 ≤ l) :
    wallUs (dtOfWallUs l tz) = l := by
  unfold wallUs dtOfWallUs
  have hord : 1 ≤ (l / 1000000 / 60 / 60 / 24).toNat := by omega
  have hrt := ord2ymd_parts ((l / 1000000 / 60 / 60 / 24).toNat) hord
  have heq := hrt.2.2.2.2.2
  unfold ymd2ord at heq ⊢
  dsimp only
  rw [heq]
  omega

theorem dtOfWallUs_wallUs (t : DateTime) (hv : t.ValidDT) (tz : Option Int) :
    dtOfWallUs (wallUs t) tz = { t with tz := tz } := by
  obtain ⟨Y, M, D, H, Mi, S, U, TZ⟩ := t
  obtain ⟨hvd, hh, hm, hs, hus⟩ := hv
  dsimp only at hvd hh hm hs hus
  have hord : 1 ≤ ymd2ord Y M D := by
    have := toOrd_pos ⟨Y, M, D⟩ hvd
    exact this
  have hdate : ord2ymd (ymd2ord Y M D) = (⟨Y, M, D⟩ : Date) := toOrd_ord2ymd ⟨Y, M, D⟩ hvd
  have hW : wallUs ⟨Y, M, D, H, Mi, S, U, TZ⟩ =
      ((ymd2ord Y M D : Int) * 86400 + (H : Int) * 3600 + (Mi : Int) * 60 + (S : Int)) *
        1000000 + (U : Int) := rfl
  have hh24 : H < 24 := hh
  have hdiv : (wallUs ⟨Y, M, D, H, Mi, S, U, TZ⟩ / 1000000 / 60 / 60 / 24).toNat =
      ymd2ord Y M D := by
    rw [hW]; omega
  unfold dtOfWallUs
  rw [hdiv, hdate]
  have hhh : ((wallUs ⟨Y, M, D, H, Mi, S, U, TZ⟩ / 1000000 / 60 / 60) % 24).toNat = H := by
    rw [hW]; omega
  have hmm2 : ((wallUs ⟨Y, M, D, H, Mi, S, U, TZ⟩ / 1000000 / 60) % 60).toNat = Mi := by
    rw [hW]; omega
  have hss : ((wallUs ⟨Y, M, D, H, Mi, S, U, TZ⟩ / 1000000) % 60).toNat = S := by
    rw [hW]; omega
  have huu : (wallUs ⟨Y, M, D, H, Mi, S, U, TZ⟩ % 1000000).toNat = U := by
    rw [hW]; omega
  rw [hhh, hmm2, hss, huu]

/-- Claim C5.  convert_date_to_local_date preserves the absolute instant
(only the offset and the wall-clock fields change), and converting to UTC
and then to a zone whose offset at that instant equals the original offset
reproduces the original datetime exactly.  The representability hypotheses
keep the intermediate wall clocks inside the range where Python would not
raise OverflowError. -/
theorem claim5_toZone_roundtrip (db : ZoneDb) (i : DateTime) (off : Int)
    (zone : String) (zf : Int → Int)
    (hvi : i.ValidDT) (hoff : i.tz = some off)
    (hzone : db zone = some zf)
    (hrange : 86400000000 ≤ utcUs i off + zf (utcUs i off) * 1000000) :
    (∃ r, convert_date_to_local_date db i zone = some r ∧
      r.tz = some (zf (utcUs i off)) ∧
      utcUs r (zf (utcUs i off)) = utcUs i off) ∧
    (∀ zname zf2, db "UTC" = some (fun _ => 0) → db zname = some zf2 →
      zf2 (utcUs i off) = off →
      86400000000 ≤ utcUs i off →
      (convert_date_to_local_date db i "UTC").bind
        (fun u => convert_date_to_local_date db u zname) = some i) := by
  have hcall : ∀ zf3 : Int → Int, ∀ z3, db z3 = some zf3 →
      convert_date_to_local_date db i z3 =
        some (dtOfWallUs (utcUs i off + zf3 (utcUs i off) * 1000000)
          (some (zf3 (utcUs i off)))) := by
    intro zf3 z3 hz3
    unfold convert_date_to_local_date utcUs
    rw [hz3, hoff]
  constructor
  · refine ⟨dtOfWallUs (utcUs i off + zf (utcUs i off) * 1000000)
      (some (zf (utcUs i off))), hcall zf zone hzone, rfl, ?_⟩
    show wallUs (dtOfWallUs (utcUs i off + zf (utcUs i off) * 1000000)
        (some (zf (utcUs i off)))) - zf (utcUs i off) * 1000000 = utcUs i off
    rw [wallUs_dtOfWallUs _ _ hrange]
    ring
  · intro zname zf2 hutc hz2 hback hlow
    have hstep1 : convert_date_to_local_date db i "UTC" =
        some (dtOfWallUs (utcUs i off) (some 0)) := by
      rw [hcall (fun _ => 0) "UTC" hutc]
      have harg : utcUs i off + 0 * 1000000 = utcUs i off := by ring
      rw [harg]
    rw [hstep1, Option.some_bind]
    have hstep2 : convert_date_to_local_date db (dtOfWallUs (utcUs i off) (some 0)) zname =
        some (dtOfWallUs (wallUs i) (some off)) := by
      unfold convert_date_to_local_date
      rw [hz2]
      have htz : (dtOfWallUs (utcUs i off) (some 0)).tz = some 0 := rfl
      rw [htz]
      dsimp only
      have hwu : wallUs (dtOfWallUs (utcUs i off) (some 0)) = utcUs i off :=
        wallUs_dtOfWallUs _ _ hlow
      rw [hwu]
      have h0 : utcUs i off - 0 * 1000000 = utcUs i off := by ring
      rw [h0, hback]
      have hfull : utcUs i off + off * 1000000 = wallUs i := by
        unfold utcUs; ring
      rw [hfull]
    rw [hstep2]
    rw [dtOfWallUs_wallUs i hvi (some off)]
    rw [← hoff]

theorem claim5_toZone_roundtrip_witness :
    (convert_date_to_local_date
        (fun z => if z = "UTC" then some (fun _ => (0 : Int))
          else if z = "CET" then some (fun _ => (7200 : Int)) else none)
        ⟨2013, 10, 9, 0, 39, 59, 0, some 7200⟩ "UTC").bind
      (fun u => convert_date_to_local_date
        (fun z => if z = "UTC" then some (fun _ => (0 : Int))
          else if z = "CET" then some (fun _ => (7200 : Int)) else none)
        u "CET") = some ⟨2013, 10, 9, 0, 39, 59, 0, some 7200⟩ :=
  (claim5_toZone_roundtrip
    (fun z => if z = "UTC" then some (fun _ => (0 : Int))
      else if z = "CET" then some (fun _ => (7200 : Int)) else none)
    ⟨2013, 10, 9, 0, 39, 59, 0, some 7200⟩ 7200 "CET" (fun _ => 7200)
    (by decide) rfl (by dsimp only; rw [if_neg (by decide), if_pos rfl]) (by decide)).2
    "CET" (fun _ => 7200) (by rw [if_pos rfl])
    (by rw [if_neg (by decide), if_pos rfl])
    rfl (by decide)

example : parsedate_tz "Wed, 9 Oct 2013 00:39:59 +0200" =
    some ⟨2013, 10, 9, 0, 39, 59, some 7200⟩ := by decide

example : convert_date_str_to_date "Wed, 9 Oct 2013 00:39:59 +0200" =
    some ⟨2013, 10, 9, 0, 39, 59, 0, some 7200⟩ := by decide

example : convert_date_str_to_date "Mon, 09 Sep 2013 17:42:22 -0700" =
    some ⟨2013, 9, 9, 17, 42, 22, 0, some (-25200)⟩ := by decide

example : convert_date_str_to_date "9 Oct 2013 00:39:59 +0200" =
    some ⟨2013, 10, 9, 0, 39, 59, 0, some 7200⟩ := by decide

example : convert_date_str_to_date "not a date" = none := by decide

example : renderTs ⟨2, 9, 9, 2013, 0, 39, 59, true, 2, 0⟩ =
    "Wed, 9 Oct 2013 00:39:59 +0200" := by decide

example : convert_date_str_to_date (renderTs ⟨2, 9, 9, 2013, 0, 39, 59, true, 2, 0⟩) =
    some (tsExpected ⟨2, 9, 9, 2013, 0, 39, 59, true, 2, 0⟩) := by decide

/-- Claim C3 (counterexample).  The string "9 Oct 2013 00:39:59 +0200" does
not match the grammar (it lacks the "<DayName>, " part: every rendering of
the grammar starts with a day-name letter, not a digit), so by the claim
convert_date_str_to_date must fail with ParseError; instead the lenient
parsedate_tz accepts it and the function returns the parsed instant with
offset +0200. -/
theorem claim3_counterexample :
    ¬ MatchesGrammar "9 Oct 2013 00:39:59 +0200" ∧
    convert_date_str_to_date "9 Oct 2013 00:39:59 +0200" =
      some ⟨2013, 10, 9, 0, 39, 59, 0, some 7200⟩ := by
  constructor
  · rintro ⟨⟨di, dd, mi2, yy, hh, mm, ss, sg, oh, om⟩, hwf, heq⟩
    have h7 : di < 7 := hwf.1
    have hdata := congrArg String.data heq
    have hhead := congrArg List.head? hdata
    interval_cases di <;>
      first
        | (have h2 : some 'M' = some '9' := hhead
           exact absurd h2 (by decide))
        | (have h2 : some 'T' = some '9' := hhead
           exact absurd h2 (by decide))
        | (have h2 : some 'W' = some '9' := hhead
           exact absurd h2 (by decide))
        | (have h2 : some 'F' = some '9' := hhead
           exact absurd h2 (by decide))
        | (have h2 : some 'S' = some '9' := hhead
           exact absurd h2 (by decide))
  · decide

theorem decDigit_mem (n : Nat) :
    decDigit n ∈ ['0', '1', '2', '3', '4', '5', '6', '7', '8', '9'] := by
  match n with
  | 0 | 1 | 2 | 3 | 4 | 5 | 6 | 7 | 8 | 9 => decide
  | n + 10 =>
    have h : decDigit (n + 10) = '0' := rfl
    rw [h]
    decide

theorem decDigit_props (n : Nat) :
    (decDigit n).isDigit = true ∧ isPySpace (decDigit n) = false ∧
    decDigit n ≠ ',' ∧ decDigit n ≠ ':' ∧ decDigit n ≠ '+' ∧ decDigit n ≠ '-' ∧
    (decDigit n).toUpper = decDigit n := by
  match n with
  | 0 | 1 | 2 | 3 | 4 | 5 | 6 | 7 | 8 | 9 => exact (by decide)
  | n + 10 =>
    have h : decDigit (n + 10) = '0' := rfl
    rw [h]
    exact (by decide)

theorem digitVal_decDigit (k : Nat) (h : k < 10) : digitVal (decDigit k) = k := by
  interval_cases k <;> decide

theorem pySplitGo_token (tok rest acc : List Char)
    (hfree : ∀ c ∈ tok, isPySpace c = false) (hne : tok ≠ [] ∨ acc ≠ []) :
    pySplitGo (tok ++ ' ' :: rest) acc = (acc.reverse ++ tok) :: pySplitGo rest [] := by
  induction tok generalizing acc with
  | nil =>
    have hacc : acc ≠ [] := by tauto
    show pySplitGo (' ' :: rest) acc = _
    rw [pySplitGo]
    rw [if_pos (by decide : isPySpace ' ' = true)]
    rw [if_neg hacc]
    simp
  | cons c tc ih =>
    have hc : isPySpace c = false := hfree c (by simp)
    show pySplitGo (c :: (tc ++ ' ' :: rest)) acc = _
    rw [pySplitGo]
    rw [if_neg (by rw [hc]; exact Bool.false_ne_true)]
    rw [ih (c :: acc) (fun x hx => hfree x (by simp [hx])) (Or.inr (by simp))]
    simp

theorem pySplitGo_last (tok acc : List Char)
    (hfree : ∀ c ∈ tok, isPySpace c = false) (hne : tok ≠ [] ∨ acc ≠ []) :
    pySplitGo tok acc = [acc.reverse ++ tok] := by
  induction tok generalizing acc with
  | nil =>
    have hacc : acc ≠ [] := by tauto
    show pySplitGo [] acc = _
    rw [pySplitGo]
    rw [if_neg hacc]
    simp
  | cons c tc ih =>
    have hc : isPySpace c = false := hfree c (by simp)
    show pySplitGo (c :: tc) acc = _
    rw [pySplitGo]
    rw [if_neg (by rw [hc]; exact Bool.false_ne_true)]
    rw [ih (c :: acc) (fun x hx => hfree x (by simp [hx])) (Or.inr (by simp))]
    simp

theorem dayAbbr_free (i : Nat) : ∀ c ∈ dayAbbrs.getD i [], isPySpace c = false := by
  match i with
  | 0 | 1 | 2 | 3 | 4 | 5 | 6 => decide
  | n + 7 =>
    intro c hc
    have h : dayAbbrs.getD (n + 7) [] = [] := rfl
    rw [h] at hc
    cases hc

theorem monAbbr_free (i : Nat) : ∀ c ∈ monAbbrs.getD i [], isPySpace c = false := by
  match i with
  | 0 | 1 | 2 | 3 | 4 | 5 | 6 | 7 | 8 | 9 | 10 | 11 => decide
  | n + 12 =>
    intro c hc
    have h : monAbbrs.getD (n + 12) [] = [] := rfl
    rw [h] at hc
    cases hc

theorem pad2_free (n : Nat) : ∀ c ∈ pad2 n, isPySpace c = false := by
  intro c hc
  unfold pad2 at hc
  simp only [List.mem_cons, List.not_mem_nil, or_false] at hc
  rcases hc with rfl | rfl <;> exact (decDigit_props _).2.1

theorem pad4_free (n : Nat) : ∀ c ∈ pad4 n, isPySpace c = false := by
  intro c hc
  unfold pad4 at hc
  simp only [List.mem_cons, List.not_mem_nil, or_false] at hc
  rcases hc with rfl | rfl | rfl | rfl <;> exact (decDigit_props _).2.1

theorem dayDec_free (n : Nat) : ∀ c ∈ dayDec n, isPySpace c = false := by
  intro c hc
  unfold dayDec at hc
  by_cases h : n < 10
  · rw [if_pos h] at hc
    simp only [List.mem_cons, List.not_mem_nil, or_false] at hc
    rcases hc with rfl
    exact (decDigit_props _).2.1
  · rw [if_neg h] at hc
    simp only [List.mem_cons, List.not_mem_nil, or_false] at hc
    rcases hc with rfl | rfl <;> exact (decDigit_props _).2.1

theorem dayTok_free (i : Nat) :
    ∀ c ∈ dayAbbrs.getD i [] ++ [','], isPySpace c = false := by
  intro c hcm
  rcases List.mem_append.mp hcm with h | h
  · exact dayAbbr_free i c h
  · simp only [List.mem_singleton] at h
    subst h
    decide

theorem timeTok_free (a b c : Nat) :
    ∀ ch ∈ pad2 a ++ ':' :: pad2 b ++ ':' :: pad2 c, isPySpace ch = false := by
  intro ch hm
  rcases List.mem_append.mp hm with h | h
  · rcases List.mem_append.mp h with h2 | h2
    · exact pad2_free a ch h2
    · rcases List.mem_cons.mp h2 with rfl | h3
      · decide
      · exact pad2_free b ch h3
  · rcases List.mem_cons.mp h with rfl | h2
    · decide
    · exact pad2_free c ch h2

theorem monAbbr_ne_nil (j : Nat) (h : j < 12) : monAbbrs.getD j [] ≠ [] := by
  interval_cases j <;> decide

/-- Splitting the rendered timestamp recovers exactly its six tokens. -/
theorem pySplit_render (f : TsFields) (h12 : f.monIdx < 12) :
    pySplit (renderTs f).data =
      [dayAbbrs.getD f.dayIdx [] ++ [','], dayDec f.d, monAbbrs.getD f.monIdx [],
       pad4 f.y, pad2 f.hh ++ ':' :: pad2 f.mi ++ ':' :: pad2 f.ss,
       (if f.sgn then '+' else '-') :: (pad2 f.ohh ++ pad2 f.omm)] := by
  show pySplitGo ((dayAbbrs.getD f.dayIdx [] ++ [',']) ++ ' ' ::
    (dayDec f.d ++ ' ' ::
      (monAbbrs.getD f.monIdx [] ++ ' ' ::
        (pad4 f.y ++ ' ' ::
          ((pad2 f.hh ++ ':' :: pad2 f.mi ++ ':' :: pad2 f.ss) ++ ' ' ::
            ((if f.sgn then '+' else '-') :: (pad2 f.ohh ++ pad2 f.omm))))))) [] = _
  rw [pySplitGo_token _ _ [] (dayTok_free f.dayIdx) (Or.inl (by simp))]
  rw [pySplitGo_token _ _ [] (dayDec_free f.d)
    (Or.inl (by unfold dayDec; by_cases h : f.d < 10 <;> simp [h]))]
  rw [pySplitGo_token _ _ [] (monAbbr_free f.monIdx)
    (Or.inl (monAbbr_ne_nil f.monIdx h12))]
  rw [pySplitGo_token _ _ [] (pad4_free f.y) (Or.inl (by unfold pad4; simp))]
  rw [pySplitGo_token _ _ [] (timeTok_free f.hh f.mi f.ss)
    (Or.inl (by unfold pad2; simp))]
  rw [pySplitGo_last _ [] (by
    intro ch hm
    rcases List.mem_cons.mp hm with rfl | h2
    · cases hs : f.sgn <;> decide
    · rcases List.mem_append.mp h2 with h3 | h3
      · exact pad2_free f.ohh ch h3
      · exact pad2_free f.omm ch h3) (Or.inl (by simp))]
  simp

theorem digitsVal_pad2 (n : Nat) (h : n < 100) : digitsVal (pad2 n) = n := by
  show 10 * (10 * 0 + digitVal (decDigit (n / 10))) + digitVal (decDigit (n % 10)) = n
  rw [digitVal_decDigit (n / 10) (by omega), digitVal_decDigit (n % 10) (by omega)]
  omega

theorem digitsVal_pad4 (n : Nat) (h : n < 10000) : digitsVal (pad4 n) = n := by
  show 10 * (10 * (10 * (10 * 0 + digitVal (decDigit (n / 1000))) +
      digitVal (decDigit (n / 100 % 10))) + digitVal (decDigit (n / 10 % 10))) +
      digitVal (decDigit (n % 10)) = n
  rw [digitVal_decDigit (n / 1000) (by omega), digitVal_decDigit (n / 100 % 10) (by omega),
    digitVal_decDigit (n / 10 % 10) (by omega), digitVal_decDigit (n % 10) (by omega)]
  omega

theorem digitsVal_pad2_pad2 (a b : Nat) (ha : a < 100) (hb : b < 100) :
    digitsVal (pad2 a ++ pad2 b) = 100 * a + b := by
  show 10 * (10 * (10 * (10 * 0 + digitVal (decDigit (a / 10))) +
      digitVal (decDigit (a % 10))) + digitVal (decDigit (b / 10))) +
      digitVal (decDigit (b % 10)) = 100 * a + b
  rw [digitVal_decDigit (a / 10) (by omega), digitVal_decDigit (a % 10) (by omega),
    digitVal_decDigit (b / 10) (by omega), digitVal_decDigit (b % 10) (by omega)]
  omega

theorem allDigits_pad2 (n : Nat) : allDigits (pad2 n) = true := by
  show ((decDigit (n / 10)).isDigit && ((decDigit (n % 10)).isDigit && true)) = true
  rw [(decDigit_props (n / 10)).1, (decDigit_props (n % 10)).1]
  rfl

theorem allDigits_pad4 (n : Nat) : allDigits (pad4 n) = true := by
  show ((decDigit (n / 1000)).isDigit && ((decDigit (n / 100 % 10)).isDigit &&
    ((decDigit (n / 10 % 10)).isDigit && ((decDigit (n % 10)).isDigit && true)))) = true
  rw [(decDigit_props (n / 1000)).1, (decDigit_props (n / 100 % 10)).1,
    (decDigit_props (n / 10 % 10)).1, (decDigit_props (n % 10)).1]
  rfl

theorem allDigits_pad2_pad2 (a b : Nat) : allDigits (pad2 a ++ pad2 b) = true := by
  show ((decDigit (a / 10)).isDigit && ((decDigit (a % 10)).isDigit &&
    ((decDigit (b / 10)).isDigit && ((decDigit (b % 10)).isDigit && true)))) = true
  rw [(decDigit_props (a / 10)).1, (decDigit_props (a % 10)).1,
    (decDigit_props (b / 10)).1, (decDigit_props (b % 10)).1]
  rfl

theorem pyInt?_pad4 (y : Nat) (h2 : y ≤ 9999) :
    pyInt? (pad4 y) = some ((y : Nat) : Int) := by
  show (if decDigit (y / 1000) = '+' then _
    else if decDigit (y / 1000) = '-' then _
    else if allDigits (pad4 y) then some ((digitsVal (pad4 y) : Nat) : Int) else none) = _
  rw [if_neg (decDigit_props (y / 1000)).2.2.2.2.1]
  rw [if_neg (decDigit_props (y / 1000)).2.2.2.2.2.1]
  rw [if_pos (allDigits_pad4 y)]
  rw [digitsVal_pad4 y (by omega)]

theorem pyInt?_pad2 (x : Nat) (h : x < 100) :
    pyInt? (pad2 x) = some ((x : Nat) : Int) := by
  show (if decDigit (x / 10) = '+' then _
    else if decDigit (x / 10) = '-' then _
    else if allDigits (pad2 x) then some ((digitsVal (pad2 x) : Nat) : Int) else none) = _
  rw [if_neg (decDigit_props (x / 10)).2.2.2.2.1]
  rw [if_neg (decDigit_props (x / 10)).2.2.2.2.2.1]
  rw [if_pos (allDigits_pad2 x)]
  rw [digitsVal_pad2 x h]

theorem pyInt?_dayDec (d : Nat) (h2 : d ≤ 31) :
    pyInt? (dayDec d) = some ((d : Nat) : Int) := by
  unfold dayDec
  by_cases h : d < 10
  · rw [if_pos h]
    show (if decDigit d = '+' then _
      else if decDigit d = '-' then _
      else if allDigits [decDigit d] then some ((digitsVal [decDigit d] : Nat) : Int)
      else none) = _
    rw [if_neg (decDigit_props d).2.2.2.2.1]
    rw [if_neg (decDigit_props d).2.2.2.2.2.1]
    have hall : allDigits [decDigit d] = true := by
      show ((decDigit d).isDigit && true) = true
      rw [(decDigit_props d).1]
      rfl
    rw [if_pos hall]
    have hval : digitsVal [decDigit d] = d := by
      show 10 * 0 + digitVal (decDigit d) = d
      rw [digitVal_decDigit d h]
      omega
    rw [hval]
  · rw [if_neg h]
    show (if decDigit (d / 10) = '+' then _
      else if decDigit (d / 10) = '-' then _
      else if allDigits (pad2 d) then some ((digitsVal (pad2 d) : Nat) : Int) else none) = _
    rw [if_neg (decDigit_props (d / 10)).2.2.2.2.1]
    rw [if_neg (decDigit_props (d / 10)).2.2.2.2.2.1]
    rw [if_pos (allDigits_pad2 d)]
    rw [digitsVal_pad2 d (by omega)]

theorem dayDec_getLast (n : Nat) : (dayDec n).getLast? = some (decDigit (n % 10)) := by
  unfold dayDec
  by_cases h : n < 10
  · rw [if_pos h]
    have hmod : n % 10 = n := Nat.mod_eq_of_lt h
    rw [hmod]
    rfl
  · rw [if_neg h]
    rfl

theorem pyFind_of_not_mem (t : Char) (l : List Char) (h : ∀ c ∈ l, c ≠ t) :
    pyFind t l = -1 := by
  induction l with
  | nil => rfl
  | cons d ds ih =>
    rw [pyFind]
    rw [if_neg (h d (by simp))]
    rw [ih (fun c hc => h c (by simp [hc]))]
    rw [if_pos (by decide : (-1 : Int) < 0)]

theorem pad4_no_colon (n : Nat) : ∀ c ∈ pad4 n, c ≠ ':' := by
  intro c hc
  unfold pad4 at hc
  simp only [List.mem_cons, List.not_mem_nil, or_false] at hc
  rcases hc with rfl | rfl | rfl | rfl <;> exact (decDigit_props _).2.2.2.1

theorem monAbbr_month (j : Nat) (h : j < 12) :
    (lowerChars (monAbbrs.getD j []) ∈ monthNamesTable) ∧
    idxOf (lowerChars (monAbbrs.getD j [])) monthNamesTable = j := by
  interval_cases j <;> exact ⟨by decide, by decide⟩

theorem tzLookup_sign (c : Char) (rest : List Char) (hc : c = '+' ∨ c = '-') :
    tzLookup (c :: rest) = none := by
  rcases hc with rfl | rfl <;>
    simp [tzLookup, tzLookupGo, tzTable]

theorem pySplitOn_timeTok (a1 a2 b1 b2 c1 c2 : Char)
    (ha1 : a1 ≠ ':') (ha2 : a2 ≠ ':') (hb1 : b1 ≠ ':') (hb2 : b2 ≠ ':')
    (hc1 : c1 ≠ ':') (hc2 : c2 ≠ ':') :
    pySplitOn ':' [a1, a2, ':', b1, b2, ':', c1, c2] = [[a1, a2], [b1, b2], [c1, c2]] := by
  simp [pySplitOn, ha1, ha2, hb1, hb2, hc1, hc2]

theorem upperChars_offTok (sgn : Bool) (a b : Nat) :
    upperChars ((if sgn then '+' else '-') :: (pad2 a ++ pad2 b)) =
      (if sgn then '+' else '-') :: (pad2 a ++ pad2 b) := by
  show [Char.toUpper (if sgn then '+' else '-'), Char.toUpper (decDigit (a / 10)),
      Char.toUpper (decDigit (a % 10)), Char.toUpper (decDigit (b / 10)),
      Char.toUpper (decDigit (b % 10))] = _
  rw [(decDigit_props (a / 10)).2.2.2.2.2.2, (decDigit_props (a % 10)).2.2.2.2.2.2,
    (decDigit_props (b / 10)).2.2.2.2.2.2, (decDigit_props (b % 10)).2.2.2.2.2.2]
  cases sgn <;> rfl

theorem pyInt?_offTok (sgn : Bool) (a b : Nat) (ha : a < 100) (hb : b < 100) :
    pyInt? ((if sgn then '+' else '-') :: (pad2 a ++ pad2 b)) =
      some ((if sgn then 1 else -1) * ((100 * a + b : Nat) : Int)) := by
  have hne : pad2 a ++ pad2 b ≠ [] := by unfold pad2; simp
  have hall := allDigits_pad2_pad2 a b
  have hdv := digitsVal_pad2_pad2 a b ha hb
  cases sgn
  · simp only [Bool.false_eq_true, if_false]
    have h1 : pyInt? ('-' :: (pad2 a ++ pad2 b)) =
        (if ('-' : Char) = '+' then
          (if pad2 a ++ pad2 b ≠ [] ∧ allDigits (pad2 a ++ pad2 b)
           then some ((digitsVal (pad2 a ++ pad2 b) : Nat) : Int) else none)
         else if ('-' : Char) = '-' then
          (if pad2 a ++ pad2 b ≠ [] ∧ allDigits (pad2 a ++ pad2 b)
           then some (-((digitsVal (pad2 a ++ pad2 b) : Nat) : Int)) else none)
         else if allDigits ('-' :: (pad2 a ++ pad2 b)) then
           some ((digitsVal ('-' :: (pad2 a ++ pad2 b)) : Nat) : Int)
         else none) := rfl
    rw [h1]
    rw [if_neg (by decide : ¬ (('-' : Char) = '+'))]
    rw [if_pos rfl]
    rw [if_pos ⟨hne, hall⟩]
    rw [hdv]
    congr 1
    push_cast
    ring
  · simp only [if_true]
    have h1 : pyInt? ('+' :: (pad2 a ++ pad2 b)) =
        (if ('+' : Char) = '+' then
          (if pad2 a ++ pad2 b ≠ [] ∧ allDigits (pad2 a ++ pad2 b)
           then some ((digitsVal (pad2 a ++ pad2 b) : Nat) : Int) else none)
         else if ('+' : Char) = '-' then
          (if pad2 a ++ pad2 b ≠ [] ∧ allDigits (pad2 a ++ pad2 b)
           then some (-((digitsVal (pad2 a ++ pad2 b) : Nat) : Int)) else none)
         else if allDigits ('+' :: (pad2 a ++ pad2 b)) then
           some ((digitsVal ('+' :: (pad2 a ++ pad2 b)) : Nat) : Int)
         else none) := rfl
    rw [h1]
    rw [if_pos rfl]
    rw [if_pos ⟨hne, hall⟩]
    rw [hdv]
    congr 1
    push_cast
    ring

/-- Evaluation of the parsedate_tz core on the six grammar tokens. -/
theorem parsedateCore_render (f : TsFields) (hwf : f.wf) :
    parsedateCore (dayDec f.d) (monAbbrs.getD f.monIdx []) (pad4 f.y)
      (pad2 f.hh ++ ':' :: pad2 f.mi ++ ':' :: pad2 f.ss)
      ((if f.sgn then '+' else '-') :: (pad2 f.ohh ++ pad2 f.omm)) =
      some ⟨(f.y : Int), ((f.monIdx + 1 : Nat) : Int), (f.d : Int), (f.hh : Int),
        (f.mi : Int), (f.ss : Int),
        some ((if f.sgn then 1 else -1) * ((f.ohh : Int) * 3600 + (f.omm : Int) * 60))⟩ := by
  obtain ⟨h7, h12, hy1, hy2, hd1, hd2, hhh, hmi, hss, hohh, homm⟩ := hwf
  obtain ⟨hmem, hidx⟩ := monAbbr_month f.monIdx h12
  have hdm31 := daysInMonth_le31 f.y (f.monIdx + 1)
  unfold parsedateCore
  rw [if_pos hmem]
  dsimp only
  rw [dayDec_getLast f.d]
  rw [pyFind_of_not_mem ':' (pad4 f.y) (pad4_no_colon f.y)]
  rw [if_neg (by decide : ¬ ((0 : Int) < -1))]
  dsimp only
  have hylast : (pad4 f.y).getLast? = some (decDigit (f.y % 10)) := rfl
  rw [hylast]
  dsimp only
  rw [if_neg ((decDigit_props (f.d % 10)).2.2.1)]
  rw [if_neg ((decDigit_props (f.y % 10)).2.2.1)]
  rw [hidx]
  unfold parsedateCore.parsedateCore2
  have hyhead : (pad4 f.y).head? = some (decDigit (f.y / 1000)) := rfl
  rw [hyhead]
  dsimp only
  rw [if_neg (by rw [(decDigit_props (f.y / 1000)).1]; simp)]
  dsimp only
  have htlast : (pad2 f.hh ++ ':' :: pad2 f.mi ++ ':' :: pad2 f.ss).getLast? =
      some (decDigit (f.ss % 10)) := rfl
  rw [htlast]
  dsimp only
  rw [if_neg ((decDigit_props (f.ss % 10)).2.2.1)]
  have hsplit3 : pySplitOn ':' (pad2 f.hh ++ ':' :: pad2 f.mi ++ ':' :: pad2 f.ss) =
      [pad2 f.hh, pad2 f.mi, pad2 f.ss] := by
    have := pySplitOn_timeTok (decDigit (f.hh / 10)) (decDigit (f.hh % 10))
      (decDigit (f.mi / 10)) (decDigit (f.mi % 10)) (decDigit (f.ss / 10))
      (decDigit (f.ss % 10)) ((decDigit_props _).2.2.2.1) ((decDigit_props _).2.2.2.1)
      ((decDigit_props _).2.2.2.1) ((decDigit_props _).2.2.2.1)
      ((decDigit_props _).2.2.2.1) ((decDigit_props _).2.2.2.1)
    exact this
  rw [hsplit3]
  dsimp only
  rw [pyInt?_pad4 f.y hy2, pyInt?_dayDec f.d (by omega),
    pyInt?_pad2 f.hh (by omega), pyInt?_pad2 f.mi (by omega), pyInt?_pad2 f.ss (by omega)]
  dsimp only
  rw [if_neg (show ¬ ((f.y : Nat) : Int) < 100 by omega)]
  rw [if_neg (show ¬ 12 < f.monIdx + 1 by omega)]
  rw [upperChars_offTok f.sgn f.ohh f.omm]
  rw [tzLookup_sign _ _ (by cases f.sgn <;> simp)]
  dsimp only
  rw [pyInt?_offTok f.sgn f.ohh f.omm hohh (by omega)]
  dsimp only
  cases hs : f.sgn
  · simp only [Bool.false_eq_true, if_false]
    by_cases hz : (100 * f.ohh + f.omm : Nat) = 0
    · rw [if_pos (show (-1 : Int) * ((100 * f.ohh + f.omm : Nat) : Int) = 0 by push_cast; omega)]
      rw [Option.some.injEq, ParsedTs.mk.injEq]
      refine ⟨rfl, rfl, rfl, rfl, rfl, rfl, ?_⟩
      rw [Option.some.injEq]
      omega
    · rw [if_neg (show ¬ (-1 : Int) * ((100 * f.ohh + f.omm : Nat) : Int) = 0 by
        push_cast; omega)]
      rw [if_pos (show (-1 : Int) * ((100 * f.ohh + f.omm : Nat) : Int) < 0 by
        push_cast; omega)]
      rw [Option.some.injEq, ParsedTs.mk.injEq]
      refine ⟨rfl, rfl, rfl, rfl, rfl, rfl, ?_⟩
      rw [Option.some.injEq]
      push_cast
      omega
  · simp only [if_true]
    by_cases hz : (100 * f.ohh + f.omm : Nat) = 0
    · rw [if_pos (show (1 : Int) * ((100 * f.ohh + f.omm : Nat) : Int) = 0 by push_cast; omega)]
      rw [Option.some.injEq, ParsedTs.mk.injEq]
      refine ⟨rfl, rfl, rfl, rfl, rfl, rfl, ?_⟩
      rw [Option.some.injEq]
      omega
    · rw [if_neg (show ¬ (1 : Int) * ((100 * f.ohh + f.omm : Nat) : Int) = 0 by
        push_cast; omega)]
      rw [if_neg (show ¬ (1 : Int) * ((100 * f.ohh + f.omm : Nat) : Int) < 0 by
        push_cast; omega)]
      rw [Option.some.injEq, ParsedTs.mk.injEq]
      refine ⟨rfl, rfl, rfl, rfl, rfl, rfl, ?_⟩
      rw [Option.some.injEq]
      push_cast
      omega

/-- The whole parser on a rendered grammar timestamp: split recovers the six
tokens, the day-name token ends in a comma and is dropped, the remaining five
tokens feed the core. -/
theorem parsedate_render (f : TsFields) (hwf : f.wf) :
    parsedate_tz (renderTs f) =
      some ⟨(f.y : Int), ((f.monIdx + 1 : Nat) : Int), (f.d : Int), (f.hh : Int),
        (f.mi : Int), (f.ss : Int),
        some ((if f.sgn then 1 else -1) * ((f.ohh : Int) * 3600 + (f.omm : Int) * 60))⟩ := by
  have h12 : f.monIdx < 12 := hwf.2.1
  unfold parsedate_tz
  rw [pySplit_render f h12]
  dsimp only
  rw [if_pos (Or.inl (List.getLast?_concat _))]
  unfold parsedate_tz.parsedateSteps
  rw [if_neg (by simp)]
  unfold parsedate_tz.parsedateSteps3
  rw [if_neg (by simp)]
  unfold parsedate_tz.parsedateFinish
  rw [if_neg (by simp)]
  dsimp only [List.take]
  exact parsedateCore_render f hwf

/-- Claim C3 (amended).  For every string matching the grammar
"<DayName>, <D> <MonthName> <YYYY> <HH>:<MM>:<SS> <±HHMM>" with in-range
fields, convert_date_str_to_date returns the instant carrying the explicit
fixed offset from the text.  The other half of the original claim is false:
the parser is lenient and also accepts many strings outside the grammar
(see the counterexample), so failure on non-grammar input is not guaranteed. -/
theorem claim3_amended (f : TsFields) (hwf : f.wf) :
    convert_date_str_to_date (renderTs f) = some (tsExpected f) := by
  obtain ⟨h7, h12, hy1, hy2, hd1, hd2, hhh, hmi, hss, hohh, homm⟩ := hwf
  unfold convert_date_str_to_date
  rw [parsedate_render f ⟨h7, h12, hy1, hy2, hd1, hd2, hhh, hmi, hss, hohh, homm⟩]
  dsimp only
  unfold mkDatetime
  have hty : ((f.y : Nat) : Int).toNat = f.y := by omega
  have htm : (((f.monIdx + 1 : Nat) : Int)).toNat = f.monIdx + 1 := by omega
  have htd : ((f.d : Nat) : Int).toNat = f.d := by omega
  have hth : ((f.hh : Nat) : Int).toNat = f.hh := by omega
  have htmi : ((f.mi : Nat) : Int).toNat = f.mi := by omega
  have hts : ((f.ss : Nat) : Int).toNat = f.ss := by omega
  simp only [hty, htm, htd, hth, htmi, hts]
  have hcond : (1 : Int) ≤ (f.y : Int) ∧ (f.y : Int) ≤ 9999 ∧
      (1 : Int) ≤ ((f.monIdx + 1 : Nat) : Int) ∧ ((f.monIdx + 1 : Nat) : Int) ≤ 12 ∧
      (1 : Int) ≤ (f.d : Int) ∧ (f.d : Int) ≤ ((daysInMonth f.y (f.monIdx + 1) : Nat) : Int) ∧
      (0 : Int) ≤ (f.hh : Int) ∧ (f.hh : Int) ≤ 23 ∧ (0 : Int) ≤ (f.mi : Int) ∧
      (f.mi : Int) ≤ 59 ∧ (0 : Int) ≤ (f.ss : Int) ∧ (f.ss : Int) ≤ 59 := by
    refine ⟨by omega, by omega, by omega, by omega, by omega, ?_, by omega, by omega,
      by omega, by omega, by omega, by omega⟩
    exact_mod_cast hd2
  rw [if_pos hcond]
  rfl

theorem claim3_amended_witness :
    (⟨2, 9, 9, 2013, 0, 39, 59, true, 2, 0⟩ : TsFields).wf ∧
    convert_date_str_to_date (renderTs ⟨2, 9, 9, 2013, 0, 39, 59, true, 2, 0⟩) =
      some (tsExpected ⟨2, 9, 9, 2013, 0, 39, 59, true, 2, 0⟩) :=
  ⟨by decide, claim3_amended ⟨2, 9, 9, 2013, 0, 39, 59, true, 2, 0⟩ (by decide)⟩

end DateUtils
